import Mathlib

/-!
# Verification of the ADO-to-GitHub pre-migration assessment tool

Shallow embedding of the core of the repository:

* `src/ado_readiness/ado_client.py` — the Azure DevOps REST client, modelled
  over an abstract HTTP oracle (`ADOOracle`) in which every raw call may fail
  (`Except String`), mirroring which client methods wrap their calls in
  `try/except` and which do not;
* `src/ado_readiness/scanner.py` — the pure complexity-scoring engine
  (`calculate_summary` and the three category scorers);
* `backend/main.py` — the FastAPI backend: the scan endpoint guards, the
  background scan task `run_scan` / `scan_project_async`, and the background
  migration task `run_migration`, modelled as pure state-transition functions
  that also return the list of broadcast progress events.

Python performs the two score/progress ratio computations
(`int(classic_ratio * 50)`, `int((i / total) * 100)`) in IEEE-754 binary64
floating point.  These are modelled exactly, by a computable correctly-rounding
function `roundD : ℚ → ℚ` (round to nearest, ties to even, 53-bit mantissa,
exponent clamped below at the subnormal limit 2^(-1074); overflow to infinity
is irrelevant at the magnitudes involved, all values being in [0, 101]).
CPython's true division of two machine integers and its float multiplication
are both correctly rounded, so `fdiv`/`fmul` below reproduce them exactly.
-/

namespace ADO

/-! ## Binary64 rounding model -/

/-- Round a rational to the nearest integer, ties to even
(the rounding applied to the scaled mantissa of a binary64 result). -/
def rnd (s : ℚ) : ℤ :=
  if s - ⌊s⌋ < 1/2 then ⌊s⌋
  else if 1/2 < s - ⌊s⌋ then ⌊s⌋ + 1
  else if ⌊s⌋ % 2 = 0 then ⌊s⌋ else ⌊s⌋ + 1

/-- Ceiling of log₂ on naturals: least `k` with `m ≤ 2 ^ k` (for `m ≥ 1`). -/
def natClog2 (m : ℕ) : ℕ := if m ≤ 1 then 0 else Nat.log2 (m - 1) + 1

/-- Floor of log₂ of a positive rational. -/
def ratLog2 (q : ℚ) : ℤ :=
  if 1 ≤ q then (Nat.log2 ⌊q⌋.toNat : ℤ) else -(natClog2 ⌈q⁻¹⌉.toNat : ℤ)

/-- The exponent of the least significant mantissa bit of the binary64
neighbourhood of `q`: `max (ratLog2 q - 52) (-1074)`, written as an `if`
so that it evaluates by `norm_num`. -/
def expw (q : ℚ) : ℤ :=
  if ratLog2 q - 52 < -1074 then -1074 else ratLog2 q - 52

/-- Correct rounding of a positive rational to binary64. -/
def roundPos (q : ℚ) : ℚ := (rnd (q / 2 ^ expw q) : ℚ) * 2 ^ expw q

/-- Correct rounding of a rational to binary64 (round to nearest, ties to
even), for magnitudes below the overflow threshold. -/
def roundD (q : ℚ) : ℚ := if q < 0 then -roundPos (-q) else roundPos q

/-- Binary64 division, as performed by CPython for `int / int` and
`float / float` (correctly rounded true quotient). -/
def fdiv (a b : ℚ) : ℚ := roundD (a / b)

/-- Binary64 multiplication (correctly rounded exact product). -/
def fmul (a b : ℚ) : ℚ := roundD (a * b)

/-- Python `int()` on a float: truncation toward zero. -/
def pyint (q : ℚ) : ℤ := if q < 0 then -⌊-q⌋ else ⌊q⌋

/-! ### Properties of the rounding model -/

theorem floor_le_rnd (s : ℚ) : ⌊s⌋ ≤ rnd s := by
  unfold rnd; split_ifs <;> omega

theorem rnd_le_floor_add_one (s : ℚ) : rnd s ≤ ⌊s⌋ + 1 := by
  unfold rnd; split_ifs <;> omega

theorem rnd_mono {s t : ℚ} (h : s ≤ t) : rnd s ≤ rnd t := by
  have hf : ⌊s⌋ ≤ ⌊t⌋ := Int.floor_le_floor h
  rcases eq_or_lt_of_le hf with heq | hlt
  · unfold rnd
    rw [← heq]
    split_ifs <;> first | omega | linarith
  · calc rnd s ≤ ⌊s⌋ + 1 := rnd_le_floor_add_one s
      _ ≤ ⌊t⌋ := hlt
      _ ≤ rnd t := floor_le_rnd t

theorem rnd_intCast (n : ℤ) : rnd (n : ℚ) = n := by
  unfold rnd
  rw [Int.floor_intCast]
  norm_num

theorem rnd_le_of_le_intCast {s : ℚ} {m : ℤ} (h : s ≤ (m : ℚ)) : rnd s ≤ m := by
  have := rnd_mono h
  rwa [rnd_intCast] at this

theorem intCast_le_rnd {m : ℤ} {s : ℚ} (h : (m : ℚ) ≤ s) : m ≤ rnd s := by
  have := rnd_mono h
  rwa [rnd_intCast] at this

theorem rnd_nonneg {s : ℚ} (h : 0 ≤ s) : 0 ≤ rnd s := by
  have := intCast_le_rnd (m := 0) (by exact_mod_cast h)
  simpa using this

theorem ratLog2_spec {q : ℚ} (hq : 0 < q) :
    (2 : ℚ) ^ ratLog2 q ≤ q ∧ q < 2 ^ (ratLog2 q + 1) := by
  unfold ratLog2
  split_ifs with h1
  · -- 1 ≤ q
    have h1' : (1 : ℤ) ≤ ⌊q⌋ := by
      rw [Int.le_floor]; exact_mod_cast h1
    set n : ℕ := ⌊q⌋.toNat with hn
    have hcast : (n : ℤ) = ⌊q⌋ := Int.toNat_of_nonneg (by omega)
    have hnz : n ≠ 0 := by omega
    constructor
    · have hlow : (2 : ℕ) ^ Nat.log2 n ≤ n := Nat.log2_self_le hnz
      have : ((2 : ℕ) ^ Nat.log2 n : ℚ) ≤ (n : ℚ) := by exact_mod_cast hlow
      calc (2 : ℚ) ^ ((Nat.log2 n : ℤ)) = ((2 : ℕ) ^ Nat.log2 n : ℚ) := by
            rw [zpow_natCast]; push_cast; ring
        _ ≤ (n : ℚ) := this
        _ = ((⌊q⌋ : ℤ) : ℚ) := by exact_mod_cast congrArg (fun z : ℤ => (z : ℚ)) hcast
        _ ≤ q := Int.floor_le q
    · have hup : n < 2 ^ (Nat.log2 n + 1) := Nat.lt_log2_self
      have hup' : ((n : ℚ) + 1) ≤ ((2 : ℕ) ^ (Nat.log2 n + 1) : ℚ) := by
        exact_mod_cast hup
      calc q < ((⌊q⌋ : ℤ) : ℚ) + 1 := Int.lt_floor_add_one q
        _ = (n : ℚ) + 1 := by rw [← hcast]; norm_num
        _ ≤ ((2 : ℕ) ^ (Nat.log2 n + 1) : ℚ) := hup'
        _ = (2 : ℚ) ^ ((Nat.log2 n : ℤ) + 1) := by
            push_cast
            rw [← zpow_natCast (2 : ℚ) (Nat.log2 n + 1)]
            push_cast
            ring_nf
  · -- 0 < q < 1
    push_neg at h1
    have hr1 : 1 < q⁻¹ := (one_lt_inv₀ hq).mpr h1
    have hc2 : (2 : ℤ) ≤ ⌈q⁻¹⌉ := by
      have h' : (1 : ℤ) < ⌈q⁻¹⌉ := Int.lt_ceil.mpr (by exact_mod_cast hr1)
      omega
    set m : ℕ := ⌈q⁻¹⌉.toNat with hmdef
    have hm : (m : ℤ) = ⌈q⁻¹⌉ := Int.toNat_of_nonneg (by omega)
    have hm2 : 2 ≤ m := by omega
    have hK : natClog2 m = Nat.log2 (m - 1) + 1 := by
      unfold natClog2
      rw [if_neg (by omega)]
    have hmup : m ≤ 2 ^ (Nat.log2 (m - 1) + 1) := by
      have := Nat.lt_log2_self (n := m - 1)
      omega
    have hlow : 2 ^ Nat.log2 (m - 1) ≤ m - 1 := Nat.log2_self_le (by omega)
    have hrup : q⁻¹ ≤ (m : ℚ) := by
      have h' := Int.le_ceil q⁻¹
      rw [← hm] at h'
      exact_mod_cast h'
    have hrlow : ((m : ℚ) - 1) < q⁻¹ := by
      have h' := Int.ceil_lt_add_one q⁻¹
      rw [← hm] at h'
      push_cast at h'
      linarith
    rw [hK]
    set K : ℕ := Nat.log2 (m - 1) + 1 with hKdef
    constructor
    · have h2K : q⁻¹ ≤ ((2 : ℚ) ^ K) := le_trans hrup (by exact_mod_cast hmup)
      have hinv : ((2 : ℚ) ^ K)⁻¹ ≤ q := by
        have h0 : (0 : ℚ) < q⁻¹ := by positivity
        have h' := inv_anti₀ h0 h2K
        rwa [inv_inv] at h'
      calc (2 : ℚ) ^ (-(K : ℤ)) = ((2 : ℚ) ^ (K : ℤ))⁻¹ := by rw [zpow_neg]
        _ = ((2 : ℚ) ^ K)⁻¹ := by rw [zpow_natCast]
        _ ≤ q := hinv
    · have h2K1 : ((2 : ℚ) ^ (K - 1)) < q⁻¹ := by
        have hcast : ((2 ^ (K - 1) : ℕ) : ℚ) ≤ ((m : ℚ) - 1) := by
          have h' : ((2 ^ (K - 1) : ℕ) : ℚ) ≤ ((m - 1 : ℕ) : ℚ) := by
            exact_mod_cast (by simpa [hKdef] using hlow : 2 ^ (K - 1) ≤ m - 1)
          rwa [Nat.cast_sub (by omega), Nat.cast_one] at h'
        calc ((2 : ℚ) ^ (K - 1)) = ((2 ^ (K - 1) : ℕ) : ℚ) := by push_cast; ring
          _ ≤ ((m : ℚ) - 1) := hcast
          _ < q⁻¹ := hrlow
      have hqlt : q < ((2 : ℚ) ^ (K - 1))⁻¹ := by
        have h0 : (0 : ℚ) < 2 ^ (K - 1) := by positivity
        have h' := inv_strictAnti₀ h0 h2K1
        rwa [inv_inv] at h'
      have hexp : (-(K : ℤ) + 1) = -((K - 1 : ℕ) : ℤ) := by
        have : ((K - 1 : ℕ) : ℤ) = (K : ℤ) - 1 := by
          rw [Nat.cast_sub (by omega), Nat.cast_one]
        omega
      rw [hexp, zpow_neg, zpow_natCast]
      exact hqlt

theorem ratLog2_mono {a b : ℚ} (ha : 0 < a) (hab : a ≤ b) : ratLog2 a ≤ ratLog2 b := by
  by_contra hcon
  push_neg at hcon
  have hb : 0 < b := lt_of_lt_of_le ha hab
  have h1 : (2 : ℚ) ^ ratLog2 a ≤ a := (ratLog2_spec ha).1
  have h2 : b < 2 ^ (ratLog2 b + 1) := (ratLog2_spec hb).2
  have h3 : (2 : ℚ) ^ (ratLog2 b + 1) ≤ 2 ^ ratLog2 a :=
    zpow_le_zpow_right₀ one_le_two (by omega)
  linarith

theorem expw_le_sub52 (q : ℚ) : ratLog2 q - 52 ≤ expw q := by
  unfold expw; split_ifs with h <;> omega

theorem neg1074_le_expw (q : ℚ) : -1074 ≤ expw q := by
  unfold expw; split_ifs with h <;> omega

theorem expw_mono {a b : ℚ} (ha : 0 < a) (hab : a ≤ b) : expw a ≤ expw b := by
  have := ratLog2_mono ha hab
  unfold expw
  split_ifs <;> omega

theorem zpow_two_pos (e : ℤ) : (0 : ℚ) < 2 ^ e := zpow_pos two_pos e

/-- If `q ≤ 2 ^ L` and the rounding grid at `q` is no coarser than `2 ^ L`
(`expw q ≤ L`), then rounding cannot overshoot `2 ^ L`. -/
theorem roundPos_le_zpow {q : ℚ} {L : ℤ} (hq : q ≤ 2 ^ L) (hL : expw q ≤ L) :
    roundPos q ≤ 2 ^ L := by
  unfold roundPos
  set e := expw q with he
  have hepos : (0 : ℚ) < 2 ^ e := zpow_two_pos e
  set k : ℕ := (L - e).toNat with hk
  have hkcast : (k : ℤ) = L - e := Int.toNat_of_nonneg (by omega)
  have hgrid : ((2 ^ k : ℤ) : ℚ) * 2 ^ e = 2 ^ L := by
    push_cast
    rw [← zpow_natCast (2 : ℚ) k, ← zpow_add₀ (by norm_num : (2:ℚ) ≠ 0)]
    congr 1
    omega
  have hs : q / 2 ^ e ≤ ((2 ^ k : ℤ) : ℚ) := by
    rw [div_le_iff₀ hepos, hgrid]
    exact hq
  have hr : rnd (q / 2 ^ e) ≤ 2 ^ k := rnd_le_of_le_intCast hs
  calc (rnd (q / 2 ^ e) : ℚ) * 2 ^ e ≤ ((2 ^ k : ℤ) : ℚ) * 2 ^ e := by
        apply mul_le_mul_of_nonneg_right _ (le_of_lt hepos)
        exact_mod_cast hr
    _ = 2 ^ L := hgrid

/-- If `2 ^ L ≤ q` and the grid is no coarser than `2 ^ L`, rounding cannot
undershoot `2 ^ L`. -/
theorem zpow_le_roundPos {q : ℚ} {L : ℤ} (hq : (2 : ℚ) ^ L ≤ q) (hL : expw q ≤ L) :
    (2 : ℚ) ^ L ≤ roundPos q := by
  unfold roundPos
  set e := expw q with he
  have hepos : (0 : ℚ) < 2 ^ e := zpow_two_pos e
  set k : ℕ := (L - e).toNat with hk
  have hkcast : (k : ℤ) = L - e := Int.toNat_of_nonneg (by omega)
  have hgrid : ((2 ^ k : ℤ) : ℚ) * 2 ^ e = 2 ^ L := by
    push_cast
    rw [← zpow_natCast (2 : ℚ) k, ← zpow_add₀ (by norm_num : (2:ℚ) ≠ 0)]
    congr 1
    omega
  have hs : ((2 ^ k : ℤ) : ℚ) ≤ q / 2 ^ e := by
    rw [le_div_iff₀ hepos, hgrid]
    exact hq
  have hr : (2 ^ k : ℤ) ≤ rnd (q / 2 ^ e) := intCast_le_rnd hs
  calc (2 : ℚ) ^ L = ((2 ^ k : ℤ) : ℚ) * 2 ^ e := hgrid.symm
    _ ≤ (rnd (q / 2 ^ e) : ℚ) * 2 ^ e := by
        apply mul_le_mul_of_nonneg_right _ (le_of_lt hepos)
        exact_mod_cast hr

theorem roundPos_nonneg {q : ℚ} (hq : 0 ≤ q) : 0 ≤ roundPos q := by
  unfold roundPos
  have hepos : (0 : ℚ) < 2 ^ expw q := zpow_two_pos _
  apply mul_nonneg _ (le_of_lt hepos)
  have : (0 : ℤ) ≤ rnd (q / 2 ^ expw q) := rnd_nonneg (by positivity)
  exact_mod_cast this

theorem roundPos_mono {a b : ℚ} (ha : 0 < a) (hab : a ≤ b) :
    roundPos a ≤ roundPos b := by
  have hb : 0 < b := lt_of_lt_of_le ha hab
  have hew : expw a ≤ expw b := expw_mono ha hab
  rcases eq_or_lt_of_le hew with heq | hlt
  · unfold roundPos
    rw [← heq]
    have hepos : (0 : ℚ) < 2 ^ expw a := zpow_two_pos _
    have hdiv : a / 2 ^ expw a ≤ b / 2 ^ expw a :=
      (div_le_div_iff_of_pos_right hepos).mpr hab
    apply mul_le_mul_of_nonneg_right _ (le_of_lt hepos)
    exact_mod_cast rnd_mono hdiv
  · -- the grid of `b` is strictly coarser: split at the power 2 ^ ratLog2 b
    have heb : expw b = ratLog2 b - 52 := by
      have h1 := neg1074_le_expw a
      unfold expw at hlt ⊢
      split_ifs at hlt ⊢ <;> omega
    have hLa : ratLog2 a + 1 ≤ ratLog2 b := by
      have h1 := expw_le_sub52 a
      omega
    have h1 : roundPos a ≤ 2 ^ ratLog2 b := by
      apply roundPos_le_zpow
      · have h3 := (ratLog2_spec ha).2
        have h4 : (2 : ℚ) ^ (ratLog2 a + 1) ≤ 2 ^ ratLog2 b :=
          zpow_le_zpow_right₀ one_le_two hLa
        linarith
      · omega
    have h2 : (2 : ℚ) ^ ratLog2 b ≤ roundPos b := by
      apply zpow_le_roundPos (ratLog2_spec hb).1
      omega
    linarith

theorem roundD_zero : roundD 0 = 0 := by
  norm_num [roundD, roundPos, expw, ratLog2, natClog2, rnd]

theorem roundD_nonneg {q : ℚ} (hq : 0 ≤ q) : 0 ≤ roundD q := by
  unfold roundD
  rw [if_neg (by linarith)]
  exact roundPos_nonneg hq

theorem roundD_mono {a b : ℚ} (ha : 0 ≤ a) (hab : a ≤ b) : roundD a ≤ roundD b := by
  rcases eq_or_lt_of_le ha with heq | hpos
  · rw [← heq, roundD_zero]
    exact roundD_nonneg (by linarith)
  · unfold roundD
    rw [if_neg (by linarith), if_neg (by linarith)]
    exact roundPos_mono hpos hab

theorem pyint_nonneg {q : ℚ} (hq : 0 ≤ q) : 0 ≤ pyint q := by
  unfold pyint
  rw [if_neg (by linarith)]
  exact Int.le_floor.mpr (by exact_mod_cast hq)

theorem pyint_mono {a b : ℚ} (ha : 0 ≤ a) (hab : a ≤ b) : pyint a ≤ pyint b := by
  unfold pyint
  rw [if_neg (by linarith), if_neg (by linarith)]
  exact Int.floor_le_floor hab

theorem pyint_le_of_le_intCast {q : ℚ} {m : ℤ} (hq : 0 ≤ q) (h : q ≤ (m : ℚ)) :
    pyint q ≤ m := by
  unfold pyint
  rw [if_neg (by linarith)]
  exact Int.floor_le_floor h |>.trans (by rw [Int.floor_intCast])

theorem fdiv_zero_left {b : ℚ} : fdiv 0 b = 0 := by
  unfold fdiv
  rw [zero_div, roundD_zero]

theorem fmul_zero_left {b : ℚ} : fmul 0 b = 0 := by
  unfold fmul
  rw [zero_mul, roundD_zero]

/-- `1.0` is representable, so it rounds to itself. -/
theorem roundD_one : roundD 1 = 1 := by
  have h1 : ratLog2 (1 : ℚ) = 0 := by
    norm_num [ratLog2, Nat.log2]
  have h2 : expw (1 : ℚ) = -52 := by
    unfold expw
    rw [h1]
    norm_num
  unfold roundD roundPos
  rw [if_neg (by norm_num), h2]
  have hs : (1 : ℚ) / 2 ^ (-52 : ℤ) = ((4503599627370496 : ℤ) : ℚ) := by norm_num
  rw [hs, rnd_intCast]
  norm_num

/-- `50.0` is representable, so it rounds to itself. -/
theorem roundD_fifty : roundD 50 = 50 := by
  have h1 : ratLog2 (50 : ℚ) = 5 := by
    have hfl : ⌊(50 : ℚ)⌋ = 50 := by norm_num
    unfold ratLog2
    rw [if_pos (by norm_num : (1 : ℚ) ≤ 50), hfl]
    simp [Nat.log2]
  have h2 : expw (50 : ℚ) = -47 := by
    unfold expw
    rw [h1]
    norm_num
  unfold roundD roundPos
  rw [if_neg (by norm_num), h2]
  have hs : (50 : ℚ) / 2 ^ (-47 : ℤ) = ((7036874417766400 : ℤ) : ℚ) := by norm_num
  rw [hs, rnd_intCast]
  norm_num

/-- `100.0` is representable, so it rounds to itself. -/
theorem roundD_hundred : roundD 100 = 100 := by
  have h1 : ratLog2 (100 : ℚ) = 6 := by
    have hfl : ⌊(100 : ℚ)⌋ = 100 := by norm_num
    unfold ratLog2
    rw [if_pos (by norm_num : (1 : ℚ) ≤ 100), hfl]
    simp [Nat.log2]
  have h2 : expw (100 : ℚ) = -46 := by
    unfold expw
    rw [h1]
    norm_num
  unfold roundD roundPos
  rw [if_neg (by norm_num), h2]
  have hs : (100 : ℚ) / 2 ^ (-46 : ℤ) = ((7036874417766400 : ℤ) : ℚ) := by norm_num
  rw [hs, rnd_intCast]
  norm_num

/-! ## Data model

The per-project record assembled by `scan_project_async` in `backend/main.py`
(a superset of the dictionary produced by the CLI scanner's
`_result_to_dict`; `_calculate_summary` reads only the shared fields). -/

/-- One repository entry, as returned by the repository listing and embedded
in the per-project record (`name`/`id`/`size`/`webUrl`). -/
structure RepoInfo where
  name : String
  id : String
  size : Nat
  url : String
deriving DecidableEq

/-- A build definition; only its `type` field is inspected
(`d.get("type") == "build"`). -/
structure BuildDef where
  type : String
deriving DecidableEq

/-- A work-item type; `name` and the `isCustomType` flag are inspected. -/
structure WitType where
  name : String
  isCustomType : Bool
deriving DecidableEq

/-- The `repositories` sub-dictionary of a project record. -/
structure Repositories where
  count : Nat
  tfvc_used : Bool
  items : List RepoInfo
deriving DecidableEq

/-- The `pipelines` sub-dictionary of a project record. -/
structure Pipelines where
  yaml_count : Nat
  build_definitions : Nat
  release_definitions : Nat
  classic_count : Nat
deriving DecidableEq

/-- The `work_items` sub-dictionary of a project record. -/
structure WorkItems where
  total : Nat
  by_type : List (String × Nat)
  custom_types : List String
  custom_fields : Nat
deriving DecidableEq

/-- The `dependencies` sub-dictionary of a project record. -/
structure Dependencies where
  service_connections : Nat
  variable_groups : Nat
deriving DecidableEq

/-- A per-project scan record (`scan_project_async`'s return dictionary). -/
structure ProjectRecord where
  name : String
  repositories : Repositories
  pipelines : Pipelines
  work_items : WorkItems
  teams_count : Nat
  dependencies : Dependencies
  test_plans_count : Nat
deriving DecidableEq

/-! ## Complexity scoring engine (`scanner.py`)

Pure functions from the list of project records to the summary.  Scores are
Python integers, modelled as `ℤ`. -/

/-- `OrganizationScanner._score_to_rating`. -/
def score_to_rating (score : ℤ) : String :=
  if score < 35 then "Low" else if score < 65 then "Medium" else "High"

/-- `OrganizationScanner._estimate_effort` (the `category` argument is unused
by the source beyond its signature). -/
def estimate_effort (score : ℤ) (category : String) : String :=
  if score < 35 then "1-2 days" else if score < 65 then "1-2 weeks" else "2+ weeks"

/-- One category's `{score, rating, effort}` dictionary. -/
structure CategoryScore where
  score : ℤ
  rating : String
  effort : String
deriving DecidableEq

/-- The aggregate counts of `_calculate_summary` (computed before the
complexity sub-dictionary is filled in). -/
def total_repositories (projects : List ProjectRecord) : Nat :=
  (projects.map (fun p => p.repositories.count)).sum

/-- Number of projects whose repository probe reported TFVC in use. -/
def tfvc_projects (projects : List ProjectRecord) : Nat :=
  (projects.filter (fun p => p.repositories.tfvc_used)).length

/-- `total_pipelines`: YAML pipelines plus release definitions, summed. -/
def total_pipelines (projects : List ProjectRecord) : Nat :=
  (projects.map (fun p => p.pipelines.yaml_count + p.pipelines.release_definitions)).sum

/-- `classic_pipelines`: release definitions, summed. -/
def classic_pipelines (projects : List ProjectRecord) : Nat :=
  (projects.map (fun p => p.pipelines.release_definitions)).sum

/-- Total work items across projects. -/
def total_work_items (projects : List ProjectRecord) : Nat :=
  (projects.map (fun p => p.work_items.total)).sum

/-- Total test plans across projects. -/
def total_test_plans (projects : List ProjectRecord) : Nat :=
  (projects.map (fun p => p.test_plans_count)).sum

/-- Total service connections across projects. -/
def total_service_connections (projects : List ProjectRecord) : Nat :=
  (projects.map (fun p => p.dependencies.service_connections)).sum

/-- `OrganizationScanner._score_repos`, reading the aggregate counts. -/
def score_repos (tfvcProjects totalRepositories : Nat) : CategoryScore :=
  let score : ℤ := 20
  let score := if tfvcProjects > 0 then score + 40 else score
  let score :=
    if totalRepositories > 50 then score + 20
    else if totalRepositories > 20 then score + 10
    else score
  { score := min score 100
    rating := score_to_rating score
    effort := estimate_effort score "repos" }

/-- `OrganizationScanner._score_pipelines`.  The ratio addend
`int(classic_ratio * 50)` is computed in binary64 floating point:
`classic_ratio = classic / max(total, 1)` is a correctly rounded float
division, the product with `50` is a correctly rounded float
multiplication, and `int` truncates. -/
def score_pipelines (classicPipelines totalPipelines : Nat) : CategoryScore :=
  let score : ℤ := 30
  let score :=
    if classicPipelines > 0 then
      score + pyint (fmul (fdiv (classicPipelines : ℚ) ((max totalPipelines 1 : ℕ) : ℚ)) 50)
    else score
  let score :=
    if totalPipelines > 100 then score + 20
    else if totalPipelines > 50 then score + 10
    else score
  { score := min score 100
    rating := score_to_rating score
    effort := estimate_effort score "pipelines" }

/-- `OrganizationScanner._score_work_items` (recomputes the total custom
fields across projects itself). -/
def score_work_items (totalWorkItems : Nat) (projects : List ProjectRecord) :
    CategoryScore :=
  let total_custom_fields := (projects.map (fun p => p.work_items.custom_fields)).sum
  let score : ℤ := 25
  let score :=
    if total_custom_fields > 20 then score + 30
    else if total_custom_fields > 10 then score + 15
    else score
  let score :=
    if totalWorkItems > 10000 then score + 25
    else if totalWorkItems > 5000 then score + 15
    else if totalWorkItems > 1000 then score + 5
    else score
  { score := min score 100
    rating := score_to_rating score
    effort := estimate_effort score "work_items" }

/-- The `complexity` sub-dictionary of the summary. -/
structure Complexity where
  repositories : CategoryScore
  pipelines : CategoryScore
  work_items : CategoryScore
  overall : ℤ
  rating : String
deriving DecidableEq

/-- The summary dictionary built by `_calculate_summary`. -/
structure Summary where
  total_projects : Nat
  total_repositories : Nat
  tfvc_projects : Nat
  total_pipelines : Nat
  classic_pipelines : Nat
  total_work_items : Nat
  total_test_plans : Nat
  total_service_connections : Nat
  complexity : Complexity
  blockers : List String
deriving DecidableEq

/-- The distinct custom work-item type names across all projects
(Python builds a `set` by iterated `update`; only its size and
non-emptiness are observed). -/
def customTypesUnion (projects : List ProjectRecord) : List String :=
  (projects.flatMap (fun p => p.work_items.custom_types)).dedup

/-- `OrganizationScanner._calculate_summary`. -/
def calculate_summary (projects : List ProjectRecord) : Summary :=
  let repoScore := score_repos (tfvc_projects projects) (total_repositories projects)
  let pipeScore := score_pipelines (classic_pipelines projects) (total_pipelines projects)
  let witScore := score_work_items (total_work_items projects) projects
  let overall : ℤ := (repoScore.score + pipeScore.score + witScore.score) / 3
  let blockers : List String := []
  let blockers :=
    if tfvc_projects projects > 0 then
      blockers ++ [toString (tfvc_projects projects) ++
        " project(s) use TFVC - requires special handling"]
    else blockers
  let blockers :=
    if classic_pipelines projects > 0 then
      blockers ++ [toString (classic_pipelines projects) ++
        " Classic release pipeline(s) need manual conversion"]
    else blockers
  let blockers :=
    if customTypesUnion projects ≠ [] then
      blockers ++ [toString (customTypesUnion projects).length ++
        " custom work item type(s) need mapping"]
    else blockers
  { total_projects := projects.length
    total_repositories := total_repositories projects
    tfvc_projects := tfvc_projects projects
    total_pipelines := total_pipelines projects
    classic_pipelines := classic_pipelines projects
    total_work_items := total_work_items projects
    total_test_plans := total_test_plans projects
    total_service_connections := total_service_connections projects
    complexity :=
      { repositories := repoScore
        pipelines := pipeScore
        work_items := witScore
        overall := overall
        rating := score_to_rating overall }
    blockers := blockers }

/-! ## Azure DevOps client (`ado_client.py`)

The raw HTTP layer is abstracted as an oracle: every raw request either
returns its payload or raises (`Except.error` with the exception text).
The client methods translate them exactly as the source does — note that
`get_repositories(project)` performs **no** exception handling in its
single-project branch, while every other per-project getter wraps its call
in `try/except`. -/

/-- The raw-request oracle.  For the work-item WIQL count query (a direct
`client.post`), `Except.error` models a raised exception while `.ok none`
models a non-200 response without an exception (the source then simply
skips the type). -/
structure ADOOracle where
  projectsRaw : Except String (List String)
  reposRaw : String → Except String (List RepoInfo)
  tfvcItemsRaw : String → Except String (List Unit)
  pipelinesRaw : String → Except String (List Unit)
  buildDefsRaw : String → Except String (List BuildDef)
  releaseDefsRaw : String → Except String (List Unit)
  witTypesRaw : String → Except String (List WitType)
  witCountRaw : String → String → Except String (Option Nat)
  teamsRaw : String → Except String (List Unit)
  svcConnRaw : String → Except String (List Unit)
  varGroupsRaw : String → Except String (List Unit)
  testPlansRaw : String → Except String (List Unit)

/-- `ADOClient.get_projects` — no exception handling. -/
def get_projects (o : ADOOracle) : Except String (List String) :=
  o.projectsRaw

/-- `ADOClient.get_repositories(project)` — the branch taken when a project
is supplied returns `self._get_all("git/repositories", project)` directly,
with no `try/except`: a failure propagates to the caller. -/
def get_repositories (o : ADOOracle) (project : String) :
    Except String (List RepoInfo) :=
  o.reposRaw project

/-- `ADOClient.check_tfvc` — any exception yields `False`. -/
def check_tfvc (o : ADOOracle) (project : String) : Bool :=
  match o.tfvcItemsRaw project with
  | .ok items => items.length > 0
  | .error _ => false

/-- `ADOClient.get_pipelines` — any exception yields `[]`. -/
def get_pipelines (o : ADOOracle) (project : String) : List Unit :=
  match o.pipelinesRaw project with
  | .ok l => l
  | .error _ => []

/-- `ADOClient.get_build_definitions` — any exception yields `[]`. -/
def get_build_definitions (o : ADOOracle) (project : String) : List BuildDef :=
  match o.buildDefsRaw project with
  | .ok l => l
  | .error _ => []

/-- `ADOClient.get_release_definitions` — a 404 response returns `[]` and
any exception yields `[]`, so every failure mode produces `[]`. -/
def get_release_definitions (o : ADOOracle) (project : String) : List Unit :=
  match o.releaseDefsRaw project with
  | .ok l => l
  | .error _ => []

/-- `ADOClient.get_work_item_types` — any exception yields `[]`. -/
def get_work_item_types (o : ADOOracle) (project : String) : List WitType :=
  match o.witTypesRaw project with
  | .ok l => l
  | .error _ => []

/-- Python `dict` assignment `d[k] = v`: replace the value of an existing
key in place, otherwise append the pair. -/
def dictInsert {β : Type} (l : List (String × β)) (k : String) (v : β) :
    List (String × β) :=
  if l.any (fun p => p.1 == k) then
    l.map (fun p => if p.1 == k then (k, v) else p)
  else l ++ [(k, v)]

/-- Python `dict` lookup `d.get(k)`. -/
def dictGet {β : Type} (l : List (String × β)) (k : String) : Option β :=
  (l.find? (fun p => p.1 == k)).map (fun p => p.2)

/-- `ADOClient.get_work_item_counts_by_type`: for each work-item type run a
WIQL count query; a 200 response stores the count, a non-200 response
stores nothing, and an exception stores `0`. -/
def get_work_item_counts_by_type (o : ADOOracle) (project : String) :
    List (String × Nat) :=
  (get_work_item_types o project).foldl
    (fun counts wit =>
      match o.witCountRaw project wit.name with
      | .ok (some n) => dictInsert counts wit.name n
      | .ok none => counts
      | .error _ => dictInsert counts wit.name 0)
    []

/-- `ADOClient.get_teams` — any exception yields `[]`. -/
def get_teams (o : ADOOracle) (project : String) : List Unit :=
  match o.teamsRaw project with
  | .ok l => l
  | .error _ => []

/-- `ADOClient.get_service_connections` — any exception yields `[]`. -/
def get_service_connections (o : ADOOracle) (project : String) : List Unit :=
  match o.svcConnRaw project with
  | .ok l => l
  | .error _ => []

/-- `ADOClient.get_variable_groups` — any exception yields `[]`. -/
def get_variable_groups (o : ADOOracle) (project : String) : List Unit :=
  match o.varGroupsRaw project with
  | .ok l => l
  | .error _ => []

/-- `ADOClient.get_test_plans` — any exception yields `[]`. -/
def get_test_plans (o : ADOOracle) (project : String) : List Unit :=
  match o.testPlansRaw project with
  | .ok l => l
  | .error _ => []

/-! ## Backend scan path (`backend/main.py`) -/

/-- The stored configuration (`ADOConfig`). -/
structure Config where
  organization_url : String
  pat : String
deriving DecidableEq

/-- The scan half of the process-wide `AppState.scan_progress` dictionary. -/
inductive ScanProgress where
  | idle
  | starting
  | scanning (progress : ℤ) (current_project : String)
      (projects_scanned total_projects : Nat)
  | completed
  | failed (error : String)
deriving DecidableEq

/-- A stored `OrganizationScanResult` (`state.scan_results`). -/
structure ScanResults where
  organization_url : String
  projects : List ProjectRecord
  summary : Summary
deriving DecidableEq

/-- One migration item's status dictionary (`message` is absent in the
initial `pending` entry). -/
structure ItemState where
  status : String
  progress : Nat
  message : Option String
deriving DecidableEq

/-- The `state.migration_progress` dictionary once initialised by
`run_migration` (`error` is only set on the batch-failure path). -/
structure MigrationProgress where
  status : String
  repos : List (String × ItemState)
  error : Option String
deriving DecidableEq

/-- An event broadcast over the progress channel, tagged `scan` or
`migration` exactly as `broadcast_progress` is invoked. -/
inductive Event where
  | scan (p : ScanProgress)
  | migration (m : MigrationProgress)
deriving DecidableEq

/-- The process-wide mutable state (`AppState`). -/
structure AppState where
  scan_results : Option ScanResults
  scan_in_progress : Bool
  scan_progress : ScanProgress
  migration_in_progress : Bool
  migration_progress : Option MigrationProgress
deriving DecidableEq

/-- The `AppState()` constructed at process start. -/
def initialState : AppState :=
  { scan_results := none
    scan_in_progress := false
    scan_progress := .idle
    migration_in_progress := false
    migration_progress := none }

/-- `scan_project_async`: gather every asset category for one project.  Only
the repository listing can raise (see `get_repositories`); every other
category getter absorbs its failures.  `custom_fields` is the literal `0`
of the source ("Simplified - would need separate API call"). -/
def scan_project_async (o : ADOOracle) (project_name : String) :
    Except String ProjectRecord := do
  let repos ← get_repositories o project_name
  let tfvc_used := check_tfvc o project_name
  let pipelines := get_pipelines o project_name
  let build_defs := get_build_definitions o project_name
  let release_defs := get_release_definitions o project_name
  let work_item_counts := get_work_item_counts_by_type o project_name
  let work_item_types := get_work_item_types o project_name
  let teams := get_teams o project_name
  let service_connections := get_service_connections o project_name
  let variable_groups := get_variable_groups o project_name
  let test_plans := get_test_plans o project_name
  pure
    { name := project_name
      repositories :=
        { count := repos.length
          tfvc_used := tfvc_used
          items := repos }
      pipelines :=
        { yaml_count := pipelines.length
          build_definitions := build_defs.length
          release_definitions := release_defs.length
          classic_count := (build_defs.filter (fun d => d.type == "build")).length }
      work_items :=
        { total := (work_item_counts.map (fun p => p.2)).sum
          by_type := work_item_counts
          custom_types := (work_item_types.filter (fun t => t.isCustomType)).map
            (fun t => t.name)
          custom_fields := 0 }
      teams_count := teams.length
      dependencies :=
        { service_connections := service_connections.length
          variable_groups := variable_groups.length }
      test_plans_count := test_plans.length }

/-- The progress value `int((i / total) * 100)` published for project index
`i` of `total`, evaluated in binary64 floating point. -/
def pyProgress (i total : Nat) : ℤ :=
  pyint (fmul (fdiv (i : ℚ) (total : ℚ)) 100)

/-- The project loop of `run_scan`: before scanning project `i` it stores and
broadcasts a `scanning` progress event, then runs `scan_project_async`; a
failure there escapes the loop (to `run_scan`'s `except` handler).  Returns
the broadcast events together with the outcome. -/
def scanLoop (o : ADOOracle) (total : Nat) :
    List String → Nat → List Event × Except String (List ProjectRecord)
  | [], _ => ([], .ok [])
  | p :: rest, i =>
    let ev : Event := .scan (.scanning (pyProgress i total) p i total)
    match scan_project_async o p with
    | .error e => ([ev], .error e)
    | .ok record =>
      let (evs, res) := scanLoop o total rest (i + 1)
      (ev :: evs, (res.map (fun rs => record :: rs)))

/-- The `try` block of `run_scan`: load the configuration, list the work set
(the single filtered project, or `get_projects`), run the loop, and compute
the summary.  Any escaped failure is the `except` path's error. -/
def runScanTry (cfg : Except String Config) (o : ADOOracle)
    (project_filter : Option String) : List Event × Except String ScanResults :=
  match cfg with
  | .error e => ([], .error e)
  | .ok config =>
    match (match project_filter with
           | some p => Except.ok [p]
           | none => get_projects o) with
    | .error e => ([], .error e)
    | .ok projectNames =>
      let total := projectNames.length
      let (evs, res) := scanLoop o total projectNames 0
      match res with
      | .error e => (evs, .error e)
      | .ok records =>
        (evs, .ok
          { organization_url := config.organization_url
            projects := records
            summary := calculate_summary records })

/-- `run_scan`, as a transition on `AppState` also yielding the broadcast
events: set the in-progress flag and the `starting` snapshot, run the try
block, publish `completed` (storing the new result) or `failed` (leaving
the previous stored result untouched), and clear the flag in `finally`. -/
def run_scan (s : AppState) (cfg : Except String Config) (o : ADOOracle)
    (project_filter : Option String) : AppState × List Event :=
  let s1 := { s with scan_in_progress := true, scan_progress := .starting }
  match runScanTry cfg o project_filter with
  | (evs, .ok results) =>
    let s2 := { s1 with scan_results := some results, scan_progress := .completed }
    let s3 := { s2 with scan_in_progress := false }
    (s3, evs ++ [.scan .completed])
  | (evs, .error e) =>
    let s2 := { s1 with scan_progress := .failed e }
    let s3 := { s2 with scan_in_progress := false }
    (s3, evs ++ [.scan (.failed e)])

/-- Outcome of the `POST /api/scan` endpoint body before any background work. -/
inductive StartScanResult where
  | conflict
  | notConfigured
  | started (project_filter : Option String)
deriving DecidableEq

/-- `start_scan`: reject with 409 Conflict while a scan is in progress,
then with 400 if unconfigured; otherwise schedule `run_scan` and return.
No state is mutated synchronously. -/
def start_scan (s : AppState) (configExists : Bool)
    (project_filter : Option String) : StartScanResult × AppState :=
  if s.scan_in_progress then (.conflict, s)
  else if !configExists then (.notConfigured, s)
  else (.started project_filter, s)

/-- Outcome of the `POST /api/migrate` endpoint body. -/
inductive StartMigrationResult where
  | conflict
  | started
deriving DecidableEq

/-- `start_migration`: reject with 409 Conflict while a migration is in
progress; otherwise schedule `run_migration` and return.  Note that no
check of `state.scan_results` is performed. -/
def start_migration (s : AppState) : StartMigrationResult × AppState :=
  if s.migration_in_progress then (.conflict, s)
  else (.started, s)

/-! ## Background migration task (`run_migration`) -/

/-- The body of a `POST /api/migrate` request (`MigrateRequest`). -/
structure MigrateRequest where
  repos : List String
  target_org : String
  visibility : String
deriving DecidableEq

/-- The arguments handed to the external `gh ado2gh migrate-repo` tool by
`execute_gei_migration`. -/
structure GeiArgs where
  ado_org : String
  ado_project : String
  ado_repo : String
  github_org : String
  github_repo : String
  visibility : String
deriving DecidableEq

/-- `config.organization_url.split("/")[-1]`. -/
def lastUrlComponent (url : String) : String :=
  (url.splitOn "/").getLastD ""

/-- The text of the `TypeError` CPython raises when `run_migration` evaluates
`state.scan_results["projects"]` while `state.scan_results` is `None`
(modelled as a fixed message; only its presence matters to the claims). -/
def noneSubscriptError : String :=
  "TypeError: NoneType object is not subscriptable"

/-- The repo-metadata lookup inside `run_migration`: for each project, the
first repository item whose `name` matches sets `repo_info` and breaks the
inner loop only, so a later project containing the name overrides an
earlier one. -/
def findRepo (projects : List ProjectRecord) (repo_name : String) :
    Option (String × RepoInfo) :=
  projects.foldl
    (fun acc p =>
      match p.repositories.items.find? (fun r => r.name == repo_name) with
      | some r => some (p.name, r)
      | none => acc)
    none

/-- The item map entry written when an item starts. -/
def inProgressItem : ItemState :=
  { status := "in_progress", progress := 0, message := some "Starting migration..." }

/-- The item map entry written when the lookup fails. -/
def notFoundItem : ItemState :=
  { status := "failed", progress := 0, message := some "Repo not found" }

/-- The item map entry written when the external tool succeeds. -/
def completedItem : ItemState :=
  { status := "completed", progress := 100, message := some "Migration completed!" }

/-- The item map entry written when the external tool fails: the message is
truncated to 100 characters, an empty message becoming "Migration failed". -/
def failedItem (message : String) : ItemState :=
  { status := "failed", progress := 0
    message := some (if message = "" then "Migration failed" else message.take 100) }

/-- The item map entry of the initial `pending` dictionary (no `message`
key). -/
def pendingItem : ItemState :=
  { status := "pending", progress := 0, message := none }

/-- The initial item map
`{repo: {"status": "pending", "progress": 0} for repo in request.repos}`
(dict comprehension: duplicate names collapse onto one key). -/
def initMap (repos : List String) : List (String × ItemState) :=
  repos.foldl (fun m r => dictInsert m r pendingItem) []

/-- The per-repo loop of `run_migration`.  `projectsOpt` is the value of
`state.scan_results` read inside the loop (`none` models the stored result
being absent, in which case subscripting it raises before the lookup).
Returns the final item map, the broadcast events, and the raised exception
text if any.  Broadcast snapshots carry batch status `"starting"`, which is
the live status for the whole loop.  The not-found path `continue`s without
broadcasting, exactly as the source does. -/
def migLoop (projectsOpt : Option (List ProjectRecord)) (config : Config)
    (gei : GeiArgs → Bool × String) (target_org visibility : String) :
    List String → List (String × ItemState) →
      List (String × ItemState) × List Event × Option String
  | [], m => (m, [], none)
  | repo_name :: rest, m =>
    let m1 := dictInsert m repo_name inProgressItem
    let ev1 : Event := .migration { status := "starting", repos := m1, error := none }
    match projectsOpt with
    | none => (m1, [ev1], some noneSubscriptError)
    | some projects =>
      match findRepo projects repo_name with
      | none =>
        let m2 := dictInsert m1 repo_name notFoundItem
        let (m3, evs, err) :=
          migLoop projectsOpt config gei target_org visibility rest m2
        (m3, ev1 :: evs, err)
      | some (projName, _) =>
        let outcome := gei
          { ado_org := lastUrlComponent config.organization_url
            ado_project := projName
            ado_repo := repo_name
            github_org := target_org
            github_repo := repo_name
            visibility := visibility }
        let m2 :=
          if outcome.1 then dictInsert m1 repo_name completedItem
          else dictInsert m1 repo_name (failedItem outcome.2)
        let ev2 : Event := .migration { status := "starting", repos := m2, error := none }
        let (m3, evs, err) :=
          migLoop projectsOpt config gei target_org visibility rest m2
        (m3, ev1 :: ev2 :: evs, err)

/-- `run_migration`, as a transition on `AppState` also yielding the
broadcast events: set the in-progress flag and the initial all-`pending`
item map, run the loop (configuration loading may raise first), then set
batch status `"completed"`, or on any exception `"failed"` plus the error
text; the in-progress flag is cleared in `finally` on every path. -/
def run_migration (s : AppState) (cfg : Except String Config)
    (gei : GeiArgs → Bool × String) (req : MigrateRequest) :
    AppState × List Event :=
  let initRepos := initMap req.repos
  let s1 := { s with
    migration_in_progress := true
    migration_progress := some { status := "starting", repos := initRepos, error := none } }
  match cfg with
  | .error e =>
    let mp : MigrationProgress := { status := "failed", repos := initRepos, error := some e }
    ({ s1 with migration_progress := some mp, migration_in_progress := false },
      [.migration mp])
  | .ok config =>
    let r := migLoop (s.scan_results.map (fun sr => sr.projects)) config gei
      req.target_org req.visibility req.repos initRepos
    match r.2.2 with
    | some e =>
      let mp : MigrationProgress := { status := "failed", repos := r.1, error := some e }
      ({ s1 with migration_progress := some mp, migration_in_progress := false },
        r.2.1 ++ [.migration mp])
    | none =>
      let mp : MigrationProgress := { status := "completed", repos := r.1, error := none }
      ({ s1 with migration_progress := some mp, migration_in_progress := false },
        r.2.1 ++ [.migration mp])

/-! ## Concrete fixtures used by witnesses and counterexamples -/

/-- A stored configuration. -/
def cfgP : Config := { organization_url := "https://dev.azure.com/org", pat := "p" }

/-- An oracle on which every raw request raises. -/
def downOracle : ADOOracle where
  projectsRaw := .error "down"
  reposRaw := fun _ => .error "down"
  tfvcItemsRaw := fun _ => .error "down"
  pipelinesRaw := fun _ => .error "down"
  buildDefsRaw := fun _ => .error "down"
  releaseDefsRaw := fun _ => .error "down"
  witTypesRaw := fun _ => .error "down"
  witCountRaw := fun _ _ => .error "down"
  teamsRaw := fun _ => .error "down"
  svcConnRaw := fun _ => .error "down"
  varGroupsRaw := fun _ => .error "down"
  testPlansRaw := fun _ => .error "down"

/-- An oracle with one project "P" on which every request succeeds with an
empty payload. -/
def okOracle1 : ADOOracle where
  projectsRaw := .ok ["P"]
  reposRaw := fun _ => .ok []
  tfvcItemsRaw := fun _ => .ok []
  pipelinesRaw := fun _ => .ok []
  buildDefsRaw := fun _ => .ok []
  releaseDefsRaw := fun _ => .ok []
  witTypesRaw := fun _ => .ok []
  witCountRaw := fun _ _ => .ok none
  teamsRaw := fun _ => .ok []
  svcConnRaw := fun _ => .ok []
  varGroupsRaw := fun _ => .ok []
  testPlansRaw := fun _ => .ok []

/-- An oracle with two projects "P" and "Q" on which every request succeeds
with an empty payload. -/
def okOracle2 : ADOOracle :=
  { okOracle1 with projectsRaw := .ok ["P", "Q"] }

/-- An oracle with one project "A" whose repository listing raises while
every other category succeeds. -/
def repoFailOracle : ADOOracle :=
  { okOracle1 with projectsRaw := .ok ["A"], reposRaw := fun _ => .error "boom" }

/-- An oracle with one project "A" whose repository listing succeeds while
every other category raises. -/
def catsFailOracle : ADOOracle :=
  { downOracle with projectsRaw := .ok ["A"], reposRaw := fun _ => .ok [] }

/-! ## Shared lemmas about the scan path -/

theorem scan_project_async_error {o : ADOOracle} {p e}
    (h : o.reposRaw p = .error e) : scan_project_async o p = .error e := by
  unfold scan_project_async get_repositories
  rw [h]
  rfl

/-- The record `scan_project_async` builds once the repository listing has
returned `l` (every other category getter is total). -/
def backendRecord (o : ADOOracle) (p : String) (l : List RepoInfo) : ProjectRecord :=
  { name := p
    repositories := { count := l.length, tfvc_used := check_tfvc o p, items := l }
    pipelines :=
      { yaml_count := (get_pipelines o p).length
        build_definitions := (get_build_definitions o p).length
        release_definitions := (get_release_definitions o p).length
        classic_count :=
          ((get_build_definitions o p).filter (fun d => d.type == "build")).length }
    work_items :=
      { total := ((get_work_item_counts_by_type o p).map (fun q => q.2)).sum
        by_type := get_work_item_counts_by_type o p
        custom_types := ((get_work_item_types o p).filter
          (fun t => t.isCustomType)).map (fun t => t.name)
        custom_fields := 0 }
    teams_count := (get_teams o p).length
    dependencies :=
      { service_connections := (get_service_connections o p).length
        variable_groups := (get_variable_groups o p).length }
    test_plans_count := (get_test_plans o p).length }

/-- Explicit value of a successful `scan_project_async`. -/
theorem scan_project_async_ok {o : ADOOracle} {p : String} {l : List RepoInfo}
    (h : o.reposRaw p = .ok l) :
    scan_project_async o p = .ok (backendRecord o p l) := by
  unfold scan_project_async get_repositories backendRecord
  rw [h]
  rfl

/-- Every record produced by `scan_project_async` has `custom_fields = 0`
and carries the project's name. -/
theorem scan_project_async_ok_props {o : ADOOracle} {p : String} {r : ProjectRecord}
    (h : scan_project_async o p = .ok r) :
    r.name = p ∧ r.work_items.custom_fields = 0 := by
  rcases hre : o.reposRaw p with e | l
  · rw [scan_project_async_error hre] at h
    cases h
  · rw [scan_project_async_ok hre] at h
    cases h
    exact ⟨rfl, rfl⟩

/-- The scan loop on a work set all of whose repository listings succeed:
one `scanning` event per project, in visit order, carrying the 0-based
count of projects already scanned, and a list of records in the same
order. -/
theorem scanLoop_ok {o : ADOOracle} {total : Nat} :
    ∀ (ps : List String) (i : Nat),
      (∀ p ∈ ps, (o.reposRaw p).isOk = true) →
      ∃ rs : List ProjectRecord,
        scanLoop o total ps i =
          ((List.enumFrom i ps).map (fun pr =>
            Event.scan (.scanning (pyProgress pr.1 total) pr.2 pr.1 total)), .ok rs) ∧
        rs.map (fun r => r.name) = ps ∧
        ∀ r ∈ rs, ∃ p ∈ ps, scan_project_async o p = .ok r := by
  intro ps
  induction ps with
  | nil => intro i _; exact ⟨[], rfl, rfl, by simp⟩
  | cons p rest ih =>
    intro i h
    have hp : (o.reposRaw p).isOk = true := h p (by simp)
    rcases hre : o.reposRaw p with e | l
    · rw [hre] at hp
      simp [Except.isOk, Except.toBool] at hp
    · obtain ⟨rs, hloop, hnames, hmem⟩ := ih (i + 1) (fun q hq => h q (by simp [hq]))
      obtain ⟨rec, hspa⟩ : ∃ rec, scan_project_async o p = .ok rec :=
        ⟨_, scan_project_async_ok hre⟩
      have hrecname : rec.name = p := (scan_project_async_ok_props hspa).1
      refine ⟨rec :: rs, ?_, ?_, ?_⟩
      · show scanLoop o total (p :: rest) i = _
        simp only [scanLoop]
        rw [hspa, hloop]
        simp [List.enumFrom_cons, Except.map]
      · simp [hrecname, hnames]
      · intro r hr
        rw [List.mem_cons] at hr
        rcases hr with hr | hr
        · exact ⟨p, by simp, by rw [hr]; exact hspa⟩
        · obtain ⟨q, hq, hsq⟩ := hmem r hr
          exact ⟨q, by simp [hq], hsq⟩

/-- A scan whose project listing and repository listings all succeed:
the final state and the broadcast trace, explicitly. -/
theorem run_scan_success {s : AppState} {config : Config} {o : ADOOracle}
    {ps : List String} (hps : o.projectsRaw = .ok ps)
    (hrepos : ∀ p ∈ ps, (o.reposRaw p).isOk = true) :
    ∃ rs : List ProjectRecord,
      run_scan s (.ok config) o none =
        ({ s with
            scan_in_progress := false
            scan_progress := .completed
            scan_results := some
              { organization_url := config.organization_url
                projects := rs
                summary := calculate_summary rs } },
          ((List.enumFrom 0 ps).map (fun pr =>
            Event.scan (.scanning (pyProgress pr.1 ps.length) pr.2 pr.1 ps.length)))
            ++ [.scan .completed]) ∧
      rs.map (fun r => r.name) = ps ∧
      ∀ r ∈ rs, ∃ p ∈ ps, scan_project_async o p = .ok r := by
  obtain ⟨rs, hloop, hnames, hmem⟩ := @scanLoop_ok o ps.length ps 0 hrepos
  refine ⟨rs, ?_, hnames, hmem⟩
  have htry : runScanTry (.ok config) o none =
      (((List.enumFrom 0 ps).map (fun pr =>
        Event.scan (.scanning (pyProgress pr.1 ps.length) pr.2 pr.1 ps.length))),
        .ok { organization_url := config.organization_url
              projects := rs
              summary := calculate_summary rs }) := by
    simp only [runScanTry, get_projects, hps, hloop]
  unfold run_scan
  rw [htry]

/-- `run_scan` on a successful try block: store the new result, publish
`completed`, clear the flag. -/
theorem run_scan_of_try_ok {s : AppState} {cfg : Except String Config}
    {o : ADOOracle} {filter : Option String} {evs0 : List Event}
    {results : ScanResults}
    (h : runScanTry cfg o filter = (evs0, .ok results)) :
    run_scan s cfg o filter =
      ({ s with
          scan_in_progress := false
          scan_progress := .completed
          scan_results := some results },
        evs0 ++ [.scan .completed]) := by
  unfold run_scan
  rw [h]

/-- `run_scan` on a failing try block: the `failed` snapshot and the
untouched previous result. -/
theorem run_scan_failure {s : AppState} {cfg : Except String Config}
    {o : ADOOracle} {filter : Option String} {evs0 : List Event} {e : String}
    (h : runScanTry cfg o filter = (evs0, .error e)) :
    run_scan s cfg o filter =
      ({ s with
          scan_in_progress := false
          scan_progress := .failed e },
        evs0 ++ [.scan (.failed e)]) := by
  unfold run_scan
  rw [h]

/-! ## Claim C3 -/

/-- C3: whenever a scan is in progress, a second start-scan request fails
synchronously with Conflict and leaves the state unchanged; whenever a
migration is in progress, a second start-migration request fails with
Conflict and leaves the state unchanged. -/
theorem start_guards_conflict (s : AppState) (configExists : Bool)
    (pf : Option String) :
    (s.scan_in_progress = true →
      start_scan s configExists pf = (.conflict, s)) ∧
    (s.migration_in_progress = true →
      start_migration s = (.conflict, s)) := by
  constructor
  · intro h
    unfold start_scan
    rw [h]
    simp
  · intro h
    unfold start_migration
    rw [h]
    simp

theorem start_guards_conflict_witness :
    start_scan
      { scan_results := none, scan_in_progress := true, scan_progress := .idle
        migration_in_progress := true, migration_progress := none } true none =
      (.conflict,
       { scan_results := none, scan_in_progress := true, scan_progress := .idle
         migration_in_progress := true, migration_progress := none }) ∧
    start_migration
      { scan_results := none, scan_in_progress := true, scan_progress := .idle
        migration_in_progress := true, migration_progress := none } =
      (.conflict,
       { scan_results := none, scan_in_progress := true, scan_progress := .idle
         migration_in_progress := true, migration_progress := none }) :=
  ⟨(start_guards_conflict _ true none).1 rfl,
   (start_guards_conflict _ true none).2 rfl⟩

/-! ## Claim C4 -/

/-- C4: on any uncaught error during the scan, the scan state records
status `failed` with the error text and the previously stored result is
left unchanged; and on every exit path of the background scan task the
in-progress flag is cleared. -/
theorem run_scan_failed_state_and_flag (s : AppState) (cfg : Except String Config)
    (o : ADOOracle) (filter : Option String) :
    ((run_scan s cfg o filter).1.scan_in_progress = false) ∧
    (∀ e : String, (runScanTry cfg o filter).2 = .error e →
      (run_scan s cfg o filter).1.scan_progress = .failed e ∧
      (run_scan s cfg o filter).1.scan_results = s.scan_results) := by
  rcases htry : runScanTry cfg o filter with ⟨evs0, res⟩
  cases res with
  | ok r =>
    rw [run_scan_of_try_ok (s := s) htry]
    refine ⟨rfl, ?_⟩
    intro e he
    simp at he
  | error e0 =>
    rw [run_scan_failure (s := s) htry]
    refine ⟨rfl, ?_⟩
    intro e he
    simp at he
    subst he
    exact ⟨rfl, rfl⟩

theorem run_scan_failed_state_and_flag_witness :
    ((run_scan initialState (.ok cfgP) downOracle none).1.scan_in_progress = false) ∧
    ((run_scan initialState (.ok cfgP) downOracle none).1.scan_progress =
      .failed "down") ∧
    ((run_scan initialState (.ok cfgP) downOracle none).1.scan_results =
      initialState.scan_results) := by
  have h := run_scan_failed_state_and_flag initialState (.ok cfgP) downOracle none
  exact ⟨h.1, (h.2 "down" rfl).1, (h.2 "down" rfl).2⟩

/-! ## Claim C7 -/

theorem score_repos_range (a b : ℕ) :
    0 ≤ (score_repos a b).score ∧ (score_repos a b).score ≤ 100 := by
  simp only [score_repos]
  split_ifs <;> simp <;> omega

theorem pipeline_addend_nonneg (c t : ℕ) :
    0 ≤ pyint (fmul (fdiv (c : ℚ) ((max t 1 : ℕ) : ℚ)) 50) := by
  apply pyint_nonneg
  unfold fmul
  apply roundD_nonneg
  apply mul_nonneg _ (by norm_num)
  unfold fdiv
  apply roundD_nonneg
  exact div_nonneg (Nat.cast_nonneg c) (Nat.cast_nonneg _)

theorem score_pipelines_range (c t : ℕ) :
    0 ≤ (score_pipelines c t).score ∧ (score_pipelines c t).score ≤ 100 := by
  have haddend := pipeline_addend_nonneg c t
  simp only [score_pipelines]
  constructor <;> split_ifs <;> omega

theorem score_work_items_range (w : ℕ) (projects : List ProjectRecord) :
    0 ≤ (score_work_items w projects).score ∧
      (score_work_items w projects).score ≤ 100 := by
  simp only [score_work_items]
  split_ifs <;> simp <;> omega

theorem int_div3_eq_floor {n : ℤ} (hn : 0 ≤ n) : n / 3 = ⌊((n : ℚ)) / 3⌋ := by
  have h1 : 3 * (n / 3) ≤ n ∧ n < 3 * (n / 3) + 3 := by omega
  symm
  rw [Int.floor_eq_iff]
  constructor
  · have : ((3 * (n / 3) : ℤ) : ℚ) ≤ ((n : ℤ) : ℚ) := by exact_mod_cast h1.1
    push_cast at this ⊢
    linarith
  · have : ((n : ℤ) : ℚ) < ((3 * (n / 3) + 3 : ℤ) : ℚ) := by exact_mod_cast h1.2
    push_cast at this ⊢
    linarith

/-- C7: each of the three category scores and the overall score are integers
in [0, 100], and the overall score is the floor of the arithmetic mean of
the three category scores. -/
theorem summary_scores_range_and_overall (projects : List ProjectRecord) :
    (0 ≤ (calculate_summary projects).complexity.repositories.score ∧
      (calculate_summary projects).complexity.repositories.score ≤ 100) ∧
    (0 ≤ (calculate_summary projects).complexity.pipelines.score ∧
      (calculate_summary projects).complexity.pipelines.score ≤ 100) ∧
    (0 ≤ (calculate_summary projects).complexity.work_items.score ∧
      (calculate_summary projects).complexity.work_items.score ≤ 100) ∧
    ((calculate_summary projects).complexity.overall =
      ⌊((((calculate_summary projects).complexity.repositories.score +
          (calculate_summary projects).complexity.pipelines.score +
          (calculate_summary projects).complexity.work_items.score : ℤ)) : ℚ) / 3⌋) ∧
    (0 ≤ (calculate_summary projects).complexity.overall ∧
      (calculate_summary projects).complexity.overall ≤ 100) := by
  have hr := score_repos_range (tfvc_projects projects) (total_repositories projects)
  have hp := score_pipelines_range (classic_pipelines projects) (total_pipelines projects)
  have hw := score_work_items_range (total_work_items projects) projects
  have hsum : 0 ≤ (score_repos (tfvc_projects projects) (total_repositories projects)).score +
      (score_pipelines (classic_pipelines projects) (total_pipelines projects)).score +
      (score_work_items (total_work_items projects) projects).score := by omega
  refine ⟨?_, ?_, ?_, ?_, ?_⟩
  · simpa only [calculate_summary] using hr
  · simpa only [calculate_summary] using hp
  · simpa only [calculate_summary] using hw
  · simp only [calculate_summary]
    exact int_div3_eq_floor hsum
  · simp only [calculate_summary]
    constructor <;> omega

/-! ## Claim C8 -/

/-- C8: the blocker list is empty iff no project uses TFVC, no classic
release pipelines exist, and no custom work-item types exist; when
non-empty it consists, in this fixed order, of the TFVC blocker naming the
affected project count, the classic-pipeline blocker naming the pipeline
count, and the custom-type blocker naming the distinct-type count. -/
theorem blockers_characterization (projects : List ProjectRecord) :
    ((calculate_summary projects).blockers =
      (if 0 < tfvc_projects projects then
        [toString (tfvc_projects projects) ++
          " project(s) use TFVC - requires special handling"] else []) ++
      (if 0 < classic_pipelines projects then
        [toString (classic_pipelines projects) ++
          " Classic release pipeline(s) need manual conversion"] else []) ++
      (if customTypesUnion projects ≠ [] then
        [toString (customTypesUnion projects).length ++
          " custom work item type(s) need mapping"] else [])) ∧
    ((calculate_summary projects).blockers = [] ↔
      tfvc_projects projects = 0 ∧ classic_pipelines projects = 0 ∧
        customTypesUnion projects = []) ∧
    (tfvc_projects projects = 0 ↔
      ∀ p ∈ projects, p.repositories.tfvc_used = false) ∧
    (classic_pipelines projects = 0 ↔
      ∀ p ∈ projects, p.pipelines.release_definitions = 0) ∧
    (customTypesUnion projects = [] ↔
      ∀ p ∈ projects, p.work_items.custom_types = []) := by
  refine ⟨?_, ?_, ?_, ?_, ?_⟩
  · simp only [calculate_summary]
    split_ifs <;> simp_all <;> omega
  · simp only [calculate_summary]
    split_ifs <;> simp_all <;> omega
  · simp only [tfvc_projects, List.length_eq_zero, List.filter_eq_nil_iff]
    constructor
    · intro h p hp
      have := h p hp
      simpa using this
    · intro h p hp
      simp [h p hp]
  · simp only [classic_pipelines, List.sum_eq_zero_iff]
    constructor
    · intro h p hp
      exact h _ (List.mem_map_of_mem _ hp)
    · intro h x hx
      obtain ⟨p, hp, hpx⟩ := List.mem_map.mp hx
      rw [← hpx]
      exact h p hp
  · simp only [customTypesUnion, List.dedup_eq_nil, List.flatMap_eq_nil_iff]

/-! ## Claim C1 -/

/-- C1 counterexample: the claim fails for the repositories category.  On an
oracle whose repository listing for project "A" raises while every other
category succeeds, the scan does not record project "A" with an empty
repository list — it aborts: the scan state becomes `failed "boom"` and no
result is stored. -/
theorem scan_repo_failure_aborts_cex :
    (run_scan initialState (.ok cfgP) repoFailOracle none).1.scan_progress =
      ScanProgress.failed "boom" ∧
    (run_scan initialState (.ok cfgP) repoFailOracle none).1.scan_results = none := by
  constructor <;> rfl

/-- C1 (amended): for every asset category *except repositories* — TFVC
probe, pipelines, build definitions, release definitions, work-item types
and counts, teams, service connections, variable groups, test plans — a
collector failure is absorbed as an empty result for that project, and the
project remains in the result set of a scan that completes.  (The custom
fields category is never fetched by this path: `custom_fields` is the
constant 0.)  A repositories failure instead propagates and aborts the
scan via the fatal path (see the counterexample). -/
theorem scan_category_failure_isolation (o : ADOOracle) (p : String)
    (l : List RepoInfo) (hrepo : o.reposRaw p = .ok l) :
    (scan_project_async o p = .ok (backendRecord o p l)) ∧
    ((backendRecord o p l).name = p) ∧
    ((backendRecord o p l).work_items.custom_fields = 0) ∧
    (∀ e, o.tfvcItemsRaw p = .error e →
      (backendRecord o p l).repositories.tfvc_used = false) ∧
    (∀ e, o.pipelinesRaw p = .error e →
      (backendRecord o p l).pipelines.yaml_count = 0) ∧
    (∀ e, o.buildDefsRaw p = .error e →
      (backendRecord o p l).pipelines.build_definitions = 0 ∧
      (backendRecord o p l).pipelines.classic_count = 0) ∧
    (∀ e, o.releaseDefsRaw p = .error e →
      (backendRecord o p l).pipelines.release_definitions = 0) ∧
    (∀ e, o.witTypesRaw p = .error e →
      (backendRecord o p l).work_items.total = 0 ∧
      (backendRecord o p l).work_items.by_type = [] ∧
      (backendRecord o p l).work_items.custom_types = []) ∧
    (∀ e, o.teamsRaw p = .error e → (backendRecord o p l).teams_count = 0) ∧
    (∀ e, o.svcConnRaw p = .error e →
      (backendRecord o p l).dependencies.service_connections = 0) ∧
    (∀ e, o.varGroupsRaw p = .error e →
      (backendRecord o p l).dependencies.variable_groups = 0) ∧
    (∀ e, o.testPlansRaw p = .error e →
      (backendRecord o p l).test_plans_count = 0) ∧
    (∀ (s : AppState) (config : Config) (ps : List String),
      o.projectsRaw = .ok ps → (∀ q ∈ ps, (o.reposRaw q).isOk = true) →
      (run_scan s (.ok config) o none).1.scan_progress = .completed ∧
      (run_scan s (.ok config) o none).1.scan_results.map
        (fun res => res.projects.map (fun r => r.name)) = some ps) := by
  refine ⟨scan_project_async_ok hrepo, rfl, rfl, ?_, ?_, ?_, ?_, ?_, ?_, ?_, ?_, ?_, ?_⟩
  · intro e he
    simp [backendRecord, check_tfvc, he]
  · intro e he
    simp [backendRecord, get_pipelines, he]
  · intro e he
    constructor <;> simp [backendRecord, get_build_definitions, he]
  · intro e he
    simp [backendRecord, get_release_definitions, he]
  · intro e he
    refine ⟨?_, ?_, ?_⟩ <;>
      simp [backendRecord, get_work_item_counts_by_type, get_work_item_types, he]
  · intro e he
    simp [backendRecord, get_teams, he]
  · intro e he
    simp [backendRecord, get_service_connections, he]
  · intro e he
    simp [backendRecord, get_variable_groups, he]
  · intro e he
    simp [backendRecord, get_test_plans, he]
  · intro s config ps hps hrepos
    obtain ⟨rs, hrun, hnames, _⟩ := @run_scan_success s config o ps hps hrepos
    rw [hrun]
    exact ⟨rfl, by simp [hnames]⟩

theorem scan_category_failure_isolation_witness :
    (scan_project_async catsFailOracle "A" =
      .ok (backendRecord catsFailOracle "A" [])) ∧
    ((backendRecord catsFailOracle "A" []).repositories.tfvc_used = false) ∧
    ((backendRecord catsFailOracle "A" []).pipelines.yaml_count = 0) ∧
    ((backendRecord catsFailOracle "A" []).pipelines.build_definitions = 0) ∧
    ((backendRecord catsFailOracle "A" []).pipelines.release_definitions = 0) ∧
    ((backendRecord catsFailOracle "A" []).work_items.total = 0) ∧
    ((backendRecord catsFailOracle "A" []).teams_count = 0) ∧
    ((backendRecord catsFailOracle "A" []).dependencies.service_connections = 0) ∧
    ((backendRecord catsFailOracle "A" []).dependencies.variable_groups = 0) ∧
    ((backendRecord catsFailOracle "A" []).test_plans_count = 0) ∧
    ((run_scan initialState (.ok cfgP) catsFailOracle none).1.scan_progress =
      .completed) ∧
    ((run_scan initialState (.ok cfgP) catsFailOracle none).1.scan_results.map
      (fun res => res.projects.map (fun r => r.name)) = some ["A"]) := by
  have h := scan_category_failure_isolation catsFailOracle "A" [] rfl
  obtain ⟨h1, _, _, h4, h5, h6, h7, h8, h9, h10, h11, h12, h13⟩ := h
  have hscan := h13 initialState cfgP ["A"] rfl (by intro q hq; rfl)
  exact ⟨h1, h4 "down" rfl, h5 "down" rfl, (h6 "down" rfl).1, h7 "down" rfl,
    (h8 "down" rfl).1, h9 "down" rfl, h10 "down" rfl, h11 "down" rfl,
    h12 "down" rfl, hscan.1, hscan.2⟩

/-! ## Claim C9 -/

theorem scanLoop_records_custom_fields {o : ADOOracle} {total : ℕ} :
    ∀ (ps : List String) (i : ℕ) (rs : List ProjectRecord),
      (scanLoop o total ps i).2 = .ok rs →
      ∀ r ∈ rs, r.work_items.custom_fields = 0 := by
  intro ps
  induction ps with
  | nil =>
    intro i rs h r hr
    simp only [scanLoop] at h
    cases h
    cases hr
  | cons p rest ih =>
    intro i rs h r hr
    simp only [scanLoop] at h
    rcases hspa : scan_project_async o p with e | rec
    · rw [hspa] at h
      cases h
    · rw [hspa] at h
      rcases hres : (scanLoop o total rest (i + 1)).2 with e | rs1
      · rw [hres] at h
        simp [Except.map] at h
      · rw [hres] at h
        simp [Except.map] at h
        rw [← h] at hr
        rw [List.mem_cons] at hr
        rcases hr with hr | hr
        · rw [hr]
          exact (scan_project_async_ok_props hspa).2
        · exact ih (i + 1) rs1 hres r hr

theorem runScanTry_ok_props {cfg : Except String Config} {o : ADOOracle}
    {filter : Option String} {evs0 : List Event} {results : ScanResults}
    (h : runScanTry cfg o filter = (evs0, .ok results)) :
    results.summary = calculate_summary results.projects ∧
    ∀ r ∈ results.projects, r.work_items.custom_fields = 0 := by
  cases cfg with
  | error e =>
    simp only [runScanTry] at h
    simp at h
  | ok config =>
    simp only [runScanTry] at h
    split at h
    · simp at h
    · rename_i ps heqps
      split at h
      · simp at h
      · rename_i records heqrec
        simp at h
        refine ⟨?_, ?_⟩
        · rw [← h.2]
        · rw [← h.2]
          intro r hr
          exact scanLoop_records_custom_fields ps 0 records heqrec r hr

theorem score_work_items_no_bonus {projects : List ProjectRecord}
    (h : ∀ p ∈ projects, p.work_items.custom_fields = 0) (w : ℕ) :
    (score_work_items w projects).score =
      25 + (if w > 10000 then 25
            else if w > 5000 then 15
            else if w > 1000 then 5 else 0) := by
  have hsum : (projects.map (fun p => p.work_items.custom_fields)).sum = 0 := by
    rw [List.sum_eq_zero_iff]
    intro x hx
    obtain ⟨p, hp, hpx⟩ := List.mem_map.mp hx
    rw [← hpx]
    exact h p hp
  simp only [score_work_items, hsum]
  split_ifs <;> omega

/-- C9: every project record produced by the backend scan path carries
`work_items.custom_fields = 0`, so the work-item score of the summary
stored by a completed backend scan never includes the custom-field bonus:
it is exactly 25 plus the work-item-count addend. -/
theorem backend_scan_no_custom_field_bonus (s : AppState)
    (cfg : Except String Config) (o : ADOOracle) (filter : Option String)
    (res : ScanResults)
    (hres : (run_scan s cfg o filter).1.scan_results = some res)
    (hc : (run_scan s cfg o filter).1.scan_progress = .completed) :
    (res.projects.all (fun p => p.work_items.custom_fields == 0) = true) ∧
    res.summary.complexity.work_items.score =
      25 + (if total_work_items res.projects > 10000 then 25
            else if total_work_items res.projects > 5000 then 15
            else if total_work_items res.projects > 1000 then 5 else 0) := by
  rcases htry : runScanTry cfg o filter with ⟨evs0, res1⟩
  cases res1 with
  | error e =>
    rw [run_scan_failure (s := s) htry] at hc
    simp at hc
  | ok results =>
    rw [run_scan_of_try_ok (s := s) htry] at hres
    simp at hres
    obtain ⟨hsummary, hfields⟩ := runScanTry_ok_props htry
    rw [← hres]
    constructor
    · rw [List.all_eq_true]
      intro p hp
      simpa using hfields p hp
    · rw [hsummary]
      have : (calculate_summary results.projects).complexity.work_items =
          score_work_items (total_work_items results.projects) results.projects := by
        simp only [calculate_summary]
      rw [this]
      exact score_work_items_no_bonus hfields _

/-- The record the backend scan produces for project "P" of `okOracle1`. -/
def recP : ProjectRecord :=
  { name := "P"
    repositories := { count := 0, tfvc_used := false, items := [] }
    pipelines := { yaml_count := 0, build_definitions := 0
                   release_definitions := 0, classic_count := 0 }
    work_items := { total := 0, by_type := [], custom_types := []
                    custom_fields := 0 }
    teams_count := 0
    dependencies := { service_connections := 0, variable_groups := 0 }
    test_plans_count := 0 }

/-- The result stored by a scan of `okOracle1`. -/
def resP : ScanResults :=
  { organization_url := cfgP.organization_url
    projects := [recP]
    summary := calculate_summary [recP] }

theorem backend_scan_no_custom_field_bonus_witness :
    ([recP].all (fun p => p.work_items.custom_fields == 0) = true) ∧
    resP.summary.complexity.work_items.score =
      25 + (if total_work_items [recP] > 10000 then 25
            else if total_work_items [recP] > 5000 then 15
            else if total_work_items [recP] > 1000 then 5 else 0) :=
  backend_scan_no_custom_field_bonus initialState (.ok cfgP) okOracle1 none
    resP rfl rfl

/-! ## Claim C5 -/

/-- The `progress` value carried by a scan event snapshot (the terminal
`completed` snapshot carries `progress: 100`). -/
def scanEventProgress : Event → Option ℤ
  | .scan (.scanning pr _ _ _) => some pr
  | .scan .completed => some 100
  | _ => none

/-- Does a scan event report `projects_scanned = n`? -/
def isScannedCount (n : ℕ) : Event → Bool
  | .scan (.scanning _ _ k _) => k == n
  | _ => false

theorem pyProgress_zero (total : ℕ) : pyProgress 0 total = 0 := by
  unfold pyProgress fdiv fmul
  rw [Nat.cast_zero, zero_div, roundD_zero, zero_mul, roundD_zero]
  unfold pyint
  norm_num

theorem pyProgress_mono {i j : ℕ} (total : ℕ) (h : i ≤ j) :
    pyProgress i total ≤ pyProgress j total := by
  unfold pyProgress fmul fdiv
  apply pyint_mono
    (roundD_nonneg (mul_nonneg (roundD_nonneg (by positivity)) (by norm_num)))
  apply roundD_mono (mul_nonneg (roundD_nonneg (by positivity)) (by norm_num))
  apply mul_le_mul_of_nonneg_right _ (by norm_num : (0 : ℚ) ≤ 100)
  apply roundD_mono (by positivity)
  rcases Nat.eq_zero_or_pos total with h0 | h0
  · simp [h0]
  · exact (div_le_div_iff_of_pos_right (by exact_mod_cast h0)).mpr (by exact_mod_cast h)

theorem pyProgress_le_100 {i total : ℕ} (hle : i ≤ total) (ht : 0 < total) :
    pyProgress i total ≤ 100 := by
  unfold pyProgress fmul fdiv
  have htq : (0 : ℚ) < (total : ℚ) := by exact_mod_cast ht
  have h1 : ((i : ℚ)) / ((total : ℚ)) ≤ 1 := by
    rw [div_le_one htq]
    exact_mod_cast hle
  have h0 : (0 : ℚ) ≤ roundD ((i : ℚ) / (total : ℚ)) := roundD_nonneg (by positivity)
  have h2 : roundD ((i : ℚ) / (total : ℚ)) ≤ 1 := by
    have h' := roundD_mono (by positivity) h1
    rwa [roundD_one] at h'
  have h3 : roundD ((i : ℚ) / (total : ℚ)) * 100 ≤ 100 := by nlinarith
  have h4 : roundD (roundD ((i : ℚ) / (total : ℚ)) * 100) ≤ 100 := by
    have h' := roundD_mono (mul_nonneg h0 (by norm_num)) h3
    rwa [roundD_hundred] at h'
  exact pyint_le_of_le_intCast (roundD_nonneg (mul_nonneg h0 (by norm_num)))
    (by exact_mod_cast h4)

theorem chain_enumFrom_mono {g : ℕ → ℤ} (hg : ∀ i, g i ≤ g (i + 1)) :
    ∀ (ps : List String) (i : ℕ),
      List.Chain' (fun a b => a ≤ b)
        ((List.enumFrom i ps).map (fun pr => g pr.1)) := by
  intro ps
  induction ps with
  | nil => intro i; simp
  | cons p rest ih =>
    intro i
    cases rest with
    | nil => simp
    | cons q qs =>
      rw [List.enumFrom_cons, List.map_cons]
      rw [List.chain'_cons']
      refine ⟨?_, ih (i + 1)⟩
      intro y hy
      rw [List.enumFrom_cons, List.map_cons, List.head?_cons] at hy
      cases hy
      exact hg i

/-- C5 (amended): for a completed scan over a non-empty work set, the
orchestrator publishes one `scanning` event *before each project is
scanned* (equivalently: after each project except the last completes, plus
once before the first), carrying
`{progress = int((i/total)*100) in binary64, current_project,
projects_scanned = i, total_projects = total}` with `i` the number of
projects scanned so far (so `i` ranges over `0 .. total-1`); the events
appear in visit order, their progress values (with the terminal snapshot's
100) are monotonically non-decreasing, and the trace ends with the
terminal `{completed, progress 100}` event. -/
theorem scan_progress_event_trace (s : AppState) (config : Config)
    (o : ADOOracle) (ps : List String)
    (hps : o.projectsRaw = .ok ps) (hne : ps ≠ [])
    (hrepos : ∀ p ∈ ps, (o.reposRaw p).isOk = true) :
    (run_scan s (.ok config) o none).2 =
      ((List.enumFrom 0 ps).map (fun pr =>
        Event.scan (.scanning (pyProgress pr.1 ps.length) pr.2 pr.1 ps.length)))
        ++ [.scan .completed] ∧
    List.Chain' (fun a b => a ≤ b)
      ((run_scan s (.ok config) o none).2.filterMap scanEventProgress) ∧
    (run_scan s (.ok config) o none).2.getLast? = some (.scan .completed) := by
  obtain ⟨rs, hrun, -, -⟩ := @run_scan_success s config o ps hps hrepos
  have htrace : (run_scan s (.ok config) o none).2 =
      ((List.enumFrom 0 ps).map (fun pr =>
        Event.scan (.scanning (pyProgress pr.1 ps.length) pr.2 pr.1 ps.length)))
        ++ [.scan .completed] := by
    rw [hrun]
  refine ⟨htrace, ?_, ?_⟩
  · rw [htrace, List.filterMap_append, List.filterMap_map]
    have hcomp : (scanEventProgress ∘ (fun pr : ℕ × String =>
        Event.scan (.scanning (pyProgress pr.1 ps.length) pr.2 pr.1 ps.length))) =
        some ∘ (fun pr : ℕ × String => pyProgress pr.1 ps.length) := rfl
    rw [hcomp, List.filterMap_eq_map]
    have hlast : List.filterMap scanEventProgress [Event.scan .completed] =
        [(100 : ℤ)] := rfl
    rw [hlast]
    rw [List.chain'_append]
    refine ⟨chain_enumFrom_mono (fun i => pyProgress_mono ps.length (Nat.le_succ i))
      ps 0, List.chain'_singleton _, ?_⟩
    intro x hx y hy
    rw [List.head?_cons] at hy
    cases hy
    obtain ⟨hne2, hxl⟩ := List.mem_getLast?_eq_getLast hx
    have hmem : x ∈ (List.enumFrom 0 ps).map
        (fun pr : ℕ × String => pyProgress pr.1 ps.length) := by
      rw [hxl]
      exact List.getLast_mem _
    obtain ⟨pr, hpr, hprx⟩ := List.mem_map.mp hmem
    have hpr' : (pr.1, pr.2) ∈ List.enumFrom 0 ps := by simpa using hpr
    have hidx : pr.1 < ps.length := by
      have h' := (List.mem_enumFrom hpr').2.1
      omega
    rw [← hprx]
    exact pyProgress_le_100 (le_of_lt hidx) (List.length_pos.mpr hne)
  · rw [htrace]
    simp

theorem scan_progress_event_trace_witness :
    (run_scan initialState (.ok cfgP) okOracle2 none).2 =
      ((List.enumFrom 0 ["P", "Q"]).map (fun pr =>
        Event.scan (.scanning (pyProgress pr.1 2) pr.2 pr.1 2)))
        ++ [.scan .completed] ∧
    List.Chain' (fun a b => a ≤ b)
      ((run_scan initialState (.ok cfgP) okOracle2 none).2.filterMap
        scanEventProgress) ∧
    (run_scan initialState (.ok cfgP) okOracle2 none).2.getLast? =
      some (.scan .completed) :=
  scan_progress_event_trace initialState cfgP okOracle2 ["P", "Q"] rfl
    (by simp) (fun q _ => rfl)

/-- C5 counterexample: the trace of a completed one-project scan is
`[scanning {progress 0, projects_scanned 0}, completed]`.  The claim as
stated requires a `scanning` event published after the project completes
with `projects_scanned = i = 1` (the number scanned so far); no event of
the trace carries `projects_scanned = 1` — the `scanning` events are
published before each project, carrying the 0-based index. -/
theorem scan_progress_event_trace_cex :
    (run_scan initialState (.ok cfgP) okOracle1 none).2 =
      [.scan (.scanning 0 "P" 0 1), .scan .completed] ∧
    (run_scan initialState (.ok cfgP) okOracle1 none).2.all
      (fun e => !(isScannedCount 1 e)) = true := by
  obtain ⟨rs, hrun, -, -⟩ := @run_scan_success initialState cfgP okOracle1 ["P"] rfl
    (fun q _ => rfl)
  have h2 : (run_scan initialState (.ok cfgP) okOracle1 none).2 =
      [.scan (.scanning (pyProgress 0 1) "P" 0 1), .scan .completed] := by
    rw [hrun]
    rfl
  rw [h2, pyProgress_zero]
  exact ⟨rfl, rfl⟩

/-! ## Claim C6 -/

theorem ratLog2_29_50 : ratLog2 ((29 : ℚ) / 50) = -1 := by
  unfold ratLog2
  rw [if_neg (by norm_num)]
  have hinv : (((29 : ℚ) / 50))⁻¹ = 50 / 29 := by norm_num
  rw [hinv]
  have hceil : ⌈(50 : ℚ) / 29⌉ = 2 := by
    rw [Int.ceil_eq_iff]
    constructor <;> norm_num
  rw [hceil]
  have h2 : ((2 : ℤ)).toNat = 2 := rfl
  rw [h2]
  norm_num [natClog2, Nat.log2]

theorem expw_29_50 : expw ((29 : ℚ) / 50) = -53 := by
  unfold expw
  rw [ratLog2_29_50]
  norm_num

/-- `29 / 50` in binary64: the float `0.58` is strictly below the real
`29/50` (mantissa `5224175567749775`, exponent `-53`). -/
theorem fdiv_29_50 : fdiv 29 50 = 5224175567749775 / 9007199254740992 := by
  unfold fdiv roundD roundPos
  rw [if_neg (by norm_num), expw_29_50]
  have hs : ((29 : ℚ) / 50) / 2 ^ (-53 : ℤ) = 130604389193744384 / 25 := by
    norm_num
  rw [hs]
  unfold rnd
  have hfl : ⌊(130604389193744384 : ℚ) / 25⌋ = 5224175567749775 := by norm_num
  rw [hfl, if_pos (by norm_num)]
  norm_num

/-- The binary64 evaluation of `int((29 / 50) * 50)` is 28, not 29. -/
theorem pyfloat_29_50_mul_50 : pyint (fmul (fdiv 29 50) 50) = 28 := by
  rw [fdiv_29_50]
  unfold fmul
  have hprod : (5224175567749775 / 9007199254740992 : ℚ) * 50 =
      130604389193744375 / 4503599627370496 := by norm_num
  rw [hprod]
  have hlog : ratLog2 ((130604389193744375 : ℚ) / 4503599627370496) = 4 := by
    unfold ratLog2
    rw [if_pos (by norm_num)]
    have hfl : ⌊(130604389193744375 : ℚ) / 4503599627370496⌋ = 28 := by norm_num
    rw [hfl]
    have h28 : ((28 : ℤ)).toNat = 28 := rfl
    rw [h28]
    simp [Nat.log2]
  have hexp : expw ((130604389193744375 : ℚ) / 4503599627370496) = -48 := by
    unfold expw
    rw [hlog]
    norm_num
  unfold roundD roundPos
  rw [if_neg (by norm_num), hexp]
  have hs : ((130604389193744375 : ℚ) / 4503599627370496) / 2 ^ (-48 : ℤ) =
      130604389193744375 / 16 := by norm_num
  rw [hs]
  unfold rnd
  have hfl2 : ⌊(130604389193744375 : ℚ) / 16⌋ = 8162774324609023 := by norm_num
  rw [hfl2, if_pos (by norm_num)]
  have hval : ((8162774324609023 : ℤ) : ℚ) * 2 ^ (-48 : ℤ) =
      8162774324609023 / 281474976710656 := by norm_num
  rw [hval]
  unfold pyint
  rw [if_neg (by norm_num)]
  norm_num

/-- The pipeline score as the specification words it: the ratio addend is
`floor(50 × classic_pipelines / max(total_pipelines, 1))` in exact integer
arithmetic. -/
def pipelineScoreSpec (classicPipelines totalPipelines : ℕ) : ℤ :=
  min (30 + ((50 * classicPipelines / max totalPipelines 1 : ℕ) : ℤ)
    + (if totalPipelines > 100 then 20
       else if totalPipelines > 50 then 10 else 0)) 100

/-- A project with 21 YAML pipelines and 29 release definitions
(`classic_pipelines = 29`, `total_pipelines = 50`). -/
def cexProject : ProjectRecord :=
  { name := "X"
    repositories := { count := 0, tfvc_used := false, items := [] }
    pipelines := { yaml_count := 21, build_definitions := 0
                   release_definitions := 29, classic_count := 0 }
    work_items := { total := 0, by_type := [], custom_types := []
                    custom_fields := 0 }
    teams_count := 0
    dependencies := { service_connections := 0, variable_groups := 0 }
    test_plans_count := 0 }

/-- C6 counterexample: at classic = 29, total = 50 the source computes
`30 + int((29/50) * 50) = 30 + 28 = 58` in binary64 floating point, while
the claimed formula `min(30 + floor(50*29/50) + 0, 100) = 59`; the two
differ. -/
theorem pipeline_score_float_cex :
    (calculate_summary [cexProject]).complexity.pipelines.score = 58 ∧
    classic_pipelines [cexProject] = 29 ∧
    total_pipelines [cexProject] = 50 ∧
    pipelineScoreSpec 29 50 = 59 ∧
    (calculate_summary [cexProject]).complexity.pipelines.score ≠
      pipelineScoreSpec (classic_pipelines [cexProject])
        (total_pipelines [cexProject]) := by
  have hkey : pyint (fmul (fdiv (((29 : ℕ)) : ℚ) (((max (50 : ℕ) 1 : ℕ)) : ℚ)) 50)
      = 28 := by
    have h1 : (((29 : ℕ)) : ℚ) = 29 := by norm_num
    have h2 : (((max (50 : ℕ) 1 : ℕ)) : ℚ) = 50 := by norm_num
    rw [h1, h2, pyfloat_29_50_mul_50]
  have hpipe : (calculate_summary [cexProject]).complexity.pipelines =
      score_pipelines 29 50 := by
    simp only [calculate_summary]
    rfl
  have hscore : (calculate_summary [cexProject]).complexity.pipelines.score = 58 := by
    rw [hpipe]
    simp only [score_pipelines]
    rw [hkey]
    norm_num
  refine ⟨hscore, rfl, rfl, by decide, ?_⟩
  rw [hscore]
  decide

/-- C6 (amended): the pipeline complexity score equals
`min(30 + F + t, 100)` where `F = int(classic/max(total,1) * 50)` is
evaluated in binary64 floating point — equal to
`floor(50*classic/max(total,1))` except for float rounding artifacts
(e.g. classic = 29, total = 50 gives 28, not 29) — and `t` is 20 if total
pipelines > 100, else 10 if > 50, else 0. -/
theorem pipeline_score_formula (projects : List ProjectRecord) :
    (calculate_summary projects).complexity.pipelines.score =
      min (30 + pyint (fmul (fdiv ((classic_pipelines projects : ℕ) : ℚ)
          (((max (total_pipelines projects) 1 : ℕ)) : ℚ)) 50)
        + (if total_pipelines projects > 100 then 20
           else if total_pipelines projects > 50 then 10 else 0)) 100 := by
  have hcp : (calculate_summary projects).complexity.pipelines =
      score_pipelines (classic_pipelines projects) (total_pipelines projects) := by
    simp only [calculate_summary]
  rw [hcp]
  simp only [score_pipelines]
  rcases Nat.eq_zero_or_pos (classic_pipelines projects) with h0 | h0
  · rw [h0]
    have hz : pyint (fmul (fdiv (((0 : ℕ)) : ℚ)
        (((max (total_pipelines projects) 1 : ℕ)) : ℚ)) 50) = 0 := by
      rw [Nat.cast_zero, fdiv_zero_left, fmul_zero_left]
      unfold pyint
      norm_num
    rw [hz]
    split_ifs <;> omega
  · simp only [if_pos h0]
    split_ifs <;> omega

/-! ## Shared lemmas about the migration path -/

theorem find?_map_update_ne {β : Type} (k k' : String) (v : β) (hne : k' ≠ k) :
    ∀ l : List (String × β),
      (l.map (fun p => if p.1 == k then (k, v) else p)).find? (fun p => p.1 == k') =
        l.find? (fun p => p.1 == k') := by
  intro l
  induction l with
  | nil => rfl
  | cons a rest ih =>
    by_cases ha : (a.1 == k) = true
    · have haeq : a.1 = k := beq_iff_eq.mp ha
      have h2 : (a.1 == k') = false := by
        rw [beq_eq_false_iff_ne, haeq]
        exact fun hkk => hne hkk.symm
      have h1 : ((k : String) == k') = false := by
        rw [beq_eq_false_iff_ne]
        exact fun hkk => hne hkk.symm
      rw [List.map_cons, if_pos ha, List.find?_cons_of_neg _ (by simp [h1]),
        List.find?_cons_of_neg _ (by simp [h2])]
      exact ih
    · rw [List.map_cons, if_neg ha]
      by_cases hak : (a.1 == k') = true
      · rw [List.find?_cons_of_pos
            (List.map (fun p => if p.1 == k then (k, v) else p) rest) hak,
          List.find?_cons_of_pos rest hak]
      · rw [List.find?_cons_of_neg
            (List.map (fun p => if p.1 == k then (k, v) else p) rest)
            (by simp [hak]),
          List.find?_cons_of_neg rest (by simp [hak])]
        exact ih

theorem dictGet_dictInsert_self {β : Type} (l : List (String × β)) (k : String)
    (v : β) : dictGet (dictInsert l k v) k = some v := by
  unfold dictInsert dictGet
  split_ifs with h
  · induction l with
    | nil => simp at h
    | cons a rest ih =>
      by_cases ha : (a.1 == k) = true
      · rw [List.map_cons, if_pos ha, List.find?_cons_of_pos _ (by simp)]
        rfl
      · rw [List.map_cons, if_neg ha, List.find?_cons_of_neg _ (by simp [ha])]
        exact ih (by simpa [List.any_cons, ha] using h)
  · have hnone : l.find? (fun p => p.1 == k) = none := by
      rw [List.find?_eq_none]
      intro p hp hc
      exact h (List.any_eq_true.mpr ⟨p, hp, hc⟩)
    rw [List.find?_append, hnone]
    simp [List.find?]

theorem dictGet_dictInsert_ne {β : Type} (l : List (String × β)) (k k' : String)
    (v : β) (hne : k' ≠ k) : dictGet (dictInsert l k v) k' = dictGet l k' := by
  unfold dictInsert dictGet
  split_ifs with h
  · rw [find?_map_update_ne k k' v hne]
  · rw [List.find?_append]
    have hsing : ([(k, v)] : List (String × β)).find? (fun p => p.1 == k') = none := by
      rw [List.find?_eq_none]
      intro p hp hc
      simp at hp
      rw [hp] at hc
      simp at hc
      exact hne hc.symm
    rw [hsing]
    cases l.find? (fun p => p.1 == k') <;> rfl

theorem dictGet_initMap_mem (n : String) :
    ∀ (repos : List String) (m : List (String × ItemState)),
      (n ∈ repos ∨ dictGet m n = some pendingItem) →
      dictGet (repos.foldl (fun m r => dictInsert m r pendingItem) m) n =
        some pendingItem := by
  intro repos
  induction repos with
  | nil =>
    intro m hm
    rcases hm with hm | hm
    · simp at hm
    · simpa using hm
  | cons r rest ih =>
    intro m hm
    rw [List.foldl_cons]
    apply ih
    by_cases heq : n = r
    · right
      rw [heq]
      exact dictGet_dictInsert_self m r pendingItem
    · rcases hm with hm | hm
      · rcases List.mem_cons.mp hm with hm | hm
        · exact absurd hm heq
        · exact Or.inl hm
      · right
        rw [dictGet_dictInsert_ne m r n pendingItem heq]
        exact hm

theorem migLoop_err_none {projects : List ProjectRecord} {config : Config}
    {gei : GeiArgs → Bool × String} {torg vis : String} :
    ∀ (names : List String) (m : List (String × ItemState)),
      (migLoop (some projects) config gei torg vis names m).2.2 = none := by
  intro names
  induction names with
  | nil => intro m; rfl
  | cons name rest ih =>
    intro m
    simp only [migLoop]
    rcases hfr : findRepo projects name with _ | ⟨pn, r⟩ <;> exact ih _

theorem migLoop_lookup_notfound {projects : List ProjectRecord} {config : Config}
    {gei : GeiArgs → Bool × String} {torg vis : String} (n : String)
    (hnf : findRepo projects n = none) :
    ∀ (names : List String) (m : List (String × ItemState)),
      (n ∈ names ∨ dictGet m n = some notFoundItem) →
      dictGet (migLoop (some projects) config gei torg vis names m).1 n =
        some notFoundItem := by
  intro names
  induction names with
  | nil =>
    intro m hm
    rcases hm with hm | hm
    · simp at hm
    · simpa [migLoop] using hm
  | cons name rest ih =>
    intro m hm
    simp only [migLoop]
    by_cases heq : n = name
    · subst heq
      rw [hnf]
      exact ih _ (Or.inr (dictGet_dictInsert_self _ n notFoundItem))
    · have hpres : ∀ (m' : List (String × ItemState)) (v : ItemState),
          dictGet (dictInsert m' name v) n = dictGet m' n :=
        fun m' v => dictGet_dictInsert_ne m' name n v heq
      have hm' : n ∈ rest ∨
          dictGet (dictInsert m name inProgressItem) n = some notFoundItem := by
        rcases hm with hm | hm
        · rcases List.mem_cons.mp hm with hm | hm
          · exact absurd hm heq
          · exact Or.inl hm
        · right
          rw [hpres m inProgressItem]
          exact hm
      rcases hfr : findRepo projects name with _ | ⟨pn, r⟩
      · rcases hm' with hm' | hm'
        · exact ih _ (Or.inl hm')
        · exact ih _ (Or.inr (by rw [hpres _ notFoundItem]; exact hm'))
      · rcases hm' with hm' | hm'
        · exact ih _ (Or.inl hm')
        · refine ih _ (Or.inr ?_)
          by_cases hgo : (gei
              { ado_org := lastUrlComponent config.organization_url
                ado_project := pn
                ado_repo := name
                github_org := torg
                github_repo := name
                visibility := vis }).1 = true
          · rw [if_pos hgo, hpres _ completedItem]
            exact hm'
          · rw [if_neg hgo, hpres _ (failedItem _)]
            exact hm'

/-- `run_migration` when a scan result is stored: the loop never raises,
so the batch is terminally `completed` and the flag cleared. -/
theorem run_migration_some (s : AppState) (config : Config)
    (gei : GeiArgs → Bool × String) (req : MigrateRequest) (sr : ScanResults)
    (hsr : s.scan_results = some sr) :
    run_migration s (.ok config) gei req =
      ({ s with
          migration_in_progress := false
          migration_progress := some
            { status := "completed"
              repos := (migLoop (some sr.projects) config gei req.target_org
                req.visibility req.repos (initMap req.repos)).1
              error := none } },
        (migLoop (some sr.projects) config gei req.target_org req.visibility
          req.repos (initMap req.repos)).2.1 ++
          [.migration
            { status := "completed"
              repos := (migLoop (some sr.projects) config gei req.target_org
                req.visibility req.repos (initMap req.repos)).1
              error := none }]) := by
  unfold run_migration
  rw [hsr]
  simp only [Option.map]
  rw [migLoop_err_none req.repos (initMap req.repos)]

/-! ## Claim C2 -/

/-- C2: each requested repo name is resolved against the most recent scan
result by linear lookup over the (project, repo) pairs (`findRepo`); a
requested name absent from the scan result ends with item status `failed`
and message "Repo not found" while the loop proceeds; after the last item
the batch status is `completed` regardless of individual item failures,
and the in-progress flag is cleared. -/
theorem migration_batch_completes (s : AppState) (config : Config)
    (gei : GeiArgs → Bool × String) (req : MigrateRequest) (sr : ScanResults)
    (hsr : s.scan_results = some sr) :
    ((run_migration s (.ok config) gei req).1.migration_progress.map
      (fun mp => mp.status) = some "completed") ∧
    ((run_migration s (.ok config) gei req).1.migration_in_progress = false) ∧
    (∀ n ∈ req.repos, findRepo sr.projects n = none →
      (run_migration s (.ok config) gei req).1.migration_progress.map
        (fun mp => dictGet mp.repos n) = some (some notFoundItem)) := by
  rw [run_migration_some s config gei req sr hsr]
  refine ⟨rfl, rfl, ?_⟩
  intro n hn hnf
  simp only [Option.map]
  rw [migLoop_lookup_notfound n hnf req.repos (initMap req.repos) (Or.inl hn)]

/-- A scan result with one project "Proj" holding repositories "a" and "c". -/
def srAC : ScanResults :=
  { organization_url := "u"
    projects :=
      [{ name := "Proj"
         repositories :=
           { count := 2, tfvc_used := false
             items := [{ name := "a", id := "1", size := 0, url := "u" },
                       { name := "c", id := "2", size := 0, url := "u" }] }
         pipelines := { yaml_count := 0, build_definitions := 0
                        release_definitions := 0, classic_count := 0 }
         work_items := { total := 0, by_type := [], custom_types := []
                         custom_fields := 0 }
         teams_count := 0
         dependencies := { service_connections := 0, variable_groups := 0 }
         test_plans_count := 0 }]
    summary := calculate_summary [] }

/-- App state holding `srAC` as the most recent scan result. -/
def migState : AppState := { initialState with scan_results := some srAC }

/-- An external migration tool that always fails. -/
def geiFail : GeiArgs → Bool × String := fun _ => (false, "boom")

/-- A migration request for repos "a", "gone", "c" ("gone" is not in the
scan result). -/
def reqACG : MigrateRequest :=
  { repos := ["a", "gone", "c"], target_org := "tgt", visibility := "private" }

theorem migration_batch_completes_witness :
    ((run_migration migState (.ok cfgP) geiFail reqACG).1.migration_progress.map
      (fun mp => mp.status) = some "completed") ∧
    ((run_migration migState (.ok cfgP) geiFail reqACG).1.migration_in_progress =
      false) ∧
    ((run_migration migState (.ok cfgP) geiFail reqACG).1.migration_progress.map
      (fun mp => dictGet mp.repos "gone") = some (some notFoundItem)) := by
  have h := migration_batch_completes migState cfgP geiFail reqACG srAC rfl
  exact ⟨h.1, h.2.1, h.2.2 "gone" (by simp [reqACG]) rfl⟩

/-! ## Claim C10 -/

/-- `run_migration` when no scan result is stored: subscripting `None`
raises inside the first iteration, after the first item was marked
in-progress and broadcast. -/
theorem run_migration_none (s : AppState) (config : Config)
    (gei : GeiArgs → Bool × String) (req : MigrateRequest) (r0 : String)
    (rest : List String) (hreq : req.repos = r0 :: rest)
    (hnores : s.scan_results = none) :
    run_migration s (.ok config) gei req =
      ({ s with
          migration_in_progress := false
          migration_progress := some
            { status := "failed"
              repos := dictInsert (initMap (r0 :: rest)) r0 inProgressItem
              error := some noneSubscriptError } },
        [.migration
          { status := "starting"
            repos := dictInsert (initMap (r0 :: rest)) r0 inProgressItem
            error := none },
         .migration
          { status := "failed"
            repos := dictInsert (initMap (r0 :: rest)) r0 inProgressItem
            error := some noneSubscriptError }]) := by
  unfold run_migration
  rw [hreq, hnores]
  rfl

/-- C10: with no stored scan result, start-migration still accepts the
request (no Not-Found check), and the background task then fails before
resolving any item: the batch status becomes `failed` with an error, the
first requested repo is left `in_progress`, every other requested repo is
left `pending`, and the in-progress flag is cleared. -/
theorem migration_without_scan_results (s : AppState) (config : Config)
    (gei : GeiArgs → Bool × String) (req : MigrateRequest) (r0 : String)
    (rest : List String) (hreq : req.repos = r0 :: rest)
    (hnores : s.scan_results = none)
    (hidle : s.migration_in_progress = false) :
    (start_migration s = (.started, s)) ∧
    ((run_migration s (.ok config) gei req).1.migration_in_progress = false) ∧
    ((run_migration s (.ok config) gei req).1.migration_progress.map
      (fun mp => mp.status) = some "failed") ∧
    ((run_migration s (.ok config) gei req).1.migration_progress.map
      (fun mp => mp.error) = some (some noneSubscriptError)) ∧
    ((run_migration s (.ok config) gei req).1.migration_progress.map
      (fun mp => dictGet mp.repos r0) = some (some inProgressItem)) ∧
    (∀ n ∈ rest, n ≠ r0 →
      (run_migration s (.ok config) gei req).1.migration_progress.map
        (fun mp => dictGet mp.repos n) = some (some pendingItem)) := by
  rw [run_migration_none s config gei req r0 rest hreq hnores]
  refine ⟨?_, rfl, rfl, rfl, ?_, ?_⟩
  · unfold start_migration
    rw [hidle]
    simp
  · simp only [Option.map]
    rw [dictGet_dictInsert_self]
  · intro n hn hne
    simp only [Option.map]
    rw [dictGet_dictInsert_ne _ r0 n _ hne]
    unfold initMap
    rw [dictGet_initMap_mem n (r0 :: rest) [] (Or.inl (List.mem_cons_of_mem r0 hn))]

theorem migration_without_scan_results_witness :
    (start_migration initialState = (.started, initialState)) ∧
    ((run_migration initialState (.ok cfgP) geiFail
      { repos := ["r1", "r2"], target_org := "t", visibility := "private" }).1.migration_in_progress = false) ∧
    ((run_migration initialState (.ok cfgP) geiFail
      { repos := ["r1", "r2"], target_org := "t", visibility := "private" }).1.migration_progress.map
      (fun mp => mp.status) = some "failed") ∧
    ((run_migration initialState (.ok cfgP) geiFail
      { repos := ["r1", "r2"], target_org := "t", visibility := "private" }).1.migration_progress.map
      (fun mp => mp.error) = some (some noneSubscriptError)) ∧
    ((run_migration initialState (.ok cfgP) geiFail
      { repos := ["r1", "r2"], target_org := "t", visibility := "private" }).1.migration_progress.map
      (fun mp => dictGet mp.repos "r1") = some (some inProgressItem)) ∧
    ((run_migration initialState (.ok cfgP) geiFail
      { repos := ["r1", "r2"], target_org := "t", visibility := "private" }).1.migration_progress.map
      (fun mp => dictGet mp.repos "r2") = some (some pendingItem)) := by
  have h := migration_without_scan_results initialState cfgP geiFail
    { repos := ["r1", "r2"], target_org := "t", visibility := "private" }
    "r1" ["r2"] rfl rfl rfl
  exact ⟨h.1, h.2.1, h.2.2.1, h.2.2.2.1, h.2.2.2.2.1,
    h.2.2.2.2.2 "r2" (by simp) (by decide)⟩
end ADO
